import Mathlib

/-!
Verification of the Koda social-calendar repository specification.

The two subsystems with design content are the bidirectional Google
Calendar sync engine (pull / push / syncAll with loop prevention) and the
discover-suggestion ranking pipeline (filter / dedupe).  The sync engine
and ranking pipeline implementations are exercised by the repository
tests; their behaviour is modelled here, faithfully to the specification,
as pure state-transformer functions over an explicit store state.  The
calendar redaction policy (`filterEventsForViewer`) is embedded directly
from its source.
-/

namespace Koda

/-! ## Sync engine: data model -/

/-- Modelled from the spec: the `source` field of a local Event
(KODA means locally authored, GOOGLE means created by a pull). -/
inductive EventSource
  | KODA
  | GOOGLE
deriving DecidableEq

/-- Modelled from the spec: status of a remote (Google) event. -/
inductive GStatus
  | confirmed
  | cancelled
deriving DecidableEq

/-- Modelled from the spec: a remote event start or end carries either a
timed `dateTime` or a date-only all-day `date` (or, invalidly, neither).
Instants are modelled as naturals. -/
structure GTimeField where
  dateTime : Option Nat
  date : Option Nat
  timeZone : Option String
deriving DecidableEq

/-- Modelled from the spec: a remote event field is valid when it carries a
timed instant or the date-only all-day fallback. -/
def GTimeField.valid (t : GTimeField) : Bool :=
  t.dateTime.isSome || t.date.isSome

/-- Modelled from the spec: the instant copied into a local event, taking
the timed value when present and the date-only fallback otherwise. -/
def GTimeField.instant (t : GTimeField) : Nat :=
  match t.dateTime with
  | some x => x
  | none => t.date.getD 0

/-- Modelled from the spec: an ephemeral remote event as listed by the
provider client.  The id and the change-token (etag) are opaque values
compared only for equality, modelled as naturals. -/
structure RemoteEvent where
  id : Nat
  summary : Option String
  description : Option String
  location : Option String
  gstart : GTimeField
  gend : GTimeField
  etag : Nat
  updated : Option Nat
  status : GStatus
deriving DecidableEq

/-- Modelled from the spec: a local Event row (only the fields the sync
engine reads or writes).  Local ids are opaque values modelled as
naturals; `updatedAt` is an instant. -/
structure LocalEvent where
  id : Nat
  ownerId : String
  title : String
  description : Option String
  locationName : Option String
  startAt : Nat
  endAt : Nat
  timezone : String
  source : EventSource
  externalId : Option Nat
  syncToGoogle : Bool
  updatedAt : Nat
deriving DecidableEq

/-- Modelled from the spec: a Mapping row associating a local event with a
remote event id, the stored remote change-token, and the last push
timestamp (absent for mappings created by a pull). -/
structure Mapping where
  userId : String
  kodaEventId : Nat
  googleEventId : Nat
  googleEtag : Nat
  lastPushedAt : Option Nat
deriving DecidableEq

/-- Modelled from the spec: the per-user provider-link configuration. -/
structure Connection where
  pushEnabled : Bool
  syncWindowPastDays : Nat
  syncWindowFutureDays : Nat
  lastSyncedAt : Option Nat
deriving DecidableEq

/-- Modelled from the spec: the combined persistent store and provider
state the sync engine operates on: Connection rows, local Event rows,
Mapping rows, and the provider-side store of remote events (tagged by the
owning user).  The counters supply fresh opaque local ids and fresh
provider-generated ids and change-tokens. -/
structure SyncState where
  connections : List (String × Connection)
  events : List LocalEvent
  mappings : List Mapping
  remote : List (String × RemoteEvent)
  nextLocalId : Nat
  nextRemoteId : Nat
deriving DecidableEq

/-- Result counts of `syncPull`. -/
structure PullCounts where
  pulled : Nat
  updated : Nat
  deleted : Nat
deriving DecidableEq

/-- Result counts of `syncPush`. -/
structure PushCounts where
  pushed : Nat
  updated : Nat
deriving DecidableEq

/-- Result counts of `syncAll`. -/
structure SyncCounts where
  pulled : Nat
  updated : Nat
  deleted : Nat
  pushed : Nat
deriving DecidableEq

/-! ## Sync engine: store and provider primitives -/

/-- Load the Connection row of a user. -/
def lookupConnection (s : SyncState) (userId : String) : Option Connection :=
  (s.connections.find? (fun p => p.1 == userId)).map Prod.snd

/-- Modelled from the spec: the provider client listing of remote events
for a user (window filtering is the external provider collaborator's
concern and does not affect the listed set in this model). -/
def listAllEvents (s : SyncState) (userId : String) : List RemoteEvent :=
  (s.remote.filter (fun p => p.1 == userId)).map Prod.snd

/-- Look up a Mapping by its (userId, googleEventId) natural key. -/
def findMapping (s : SyncState) (userId : String) (gid : Nat) : Option Mapping :=
  s.mappings.find? (fun m => m.userId == userId && m.googleEventId == gid)

/-- Look up a Mapping by its (userId, kodaEventId) natural key. -/
def findMappingByKoda (s : SyncState) (userId : String) (kid : Nat) : Option Mapping :=
  s.mappings.find? (fun m => m.userId == userId && m.kodaEventId == kid)

/-! ## Sync engine: pull (remote to local) -/

/-- Modelled from the spec: the local event created by a pull for a remote
event with no mapping: source GOOGLE, externalId the remote id, fields
copied from the remote event. -/
def remoteToLocal (userId : String) (eid : Nat) (now : Nat) (r : RemoteEvent) :
    LocalEvent :=
  { id := eid
    ownerId := userId
    title := r.summary.getD ""
    description := r.description
    locationName := r.location
    startAt := r.gstart.instant
    endAt := r.gend.instant
    timezone := (r.gstart.timeZone.getD "UTC")
    source := EventSource.GOOGLE
    externalId := some r.id
    syncToGoogle := false
    updatedAt := now }

/-- Modelled from the spec: a pull with a changed token updates the local
event fields from the remote event (the store bumps `updatedAt` to the
write time). -/
def applyRemoteUpdate (now : Nat) (r : RemoteEvent) (e : LocalEvent) :
    LocalEvent :=
  { e with
    title := r.summary.getD ""
    description := r.description
    locationName := r.location
    startAt := r.gstart.instant
    endAt := r.gend.instant
    updatedAt := now }

/-- Modelled from the spec: the store effect of pull on a cancelled remote
event with a mapping: delete the local event and the mapping row. -/
def pullDelete (userId : String) (r : RemoteEvent) (m : Mapping) (s : SyncState) :
    SyncState :=
  { s with
    events := s.events.filter (fun e => !(e.id == m.kodaEventId))
    mappings := s.mappings.filter
      (fun m2 => !(m2.userId == userId && m2.googleEventId == r.id)) }

/-- Modelled from the spec: the store effect of pull on an unmapped
confirmed remote event: create the local event and a mapping storing the
remote change-token. -/
def pullCreate (userId : String) (now : Nat) (r : RemoteEvent) (s : SyncState) :
    SyncState :=
  { s with
    events := s.events ++ [remoteToLocal userId s.nextLocalId now r]
    mappings := s.mappings ++
      [{ userId := userId
         kodaEventId := s.nextLocalId
         googleEventId := r.id
         googleEtag := r.etag
         lastPushedAt := none }]
    nextLocalId := s.nextLocalId + 1 }

/-- The per-row mapping refresh of a pull update: the row keyed by
(userId, remote id) receives the new change-token. -/
def pullUpdateMap (userId : String) (r : RemoteEvent) (m2 : Mapping) : Mapping :=
  if m2.userId == userId && m2.googleEventId == r.id then
    { m2 with googleEtag := r.etag }
  else m2

/-- The per-row event refresh of a pull update: the event with the mapped
local id receives the remote fields. -/
def pullUpdateEvent (now : Nat) (r : RemoteEvent) (kid : Nat) (e : LocalEvent) :
    LocalEvent :=
  if e.id == kid then applyRemoteUpdate now r e else e

/-- Modelled from the spec: the store effect of pull on a mapped confirmed
remote event with a changed token: update the local event fields and the
stored token. -/
def pullUpdate (userId : String) (now : Nat) (r : RemoteEvent) (m : Mapping)
    (s : SyncState) : SyncState :=
  { s with
    events := s.events.map (pullUpdateEvent now r m.kodaEventId)
    mappings := s.mappings.map (pullUpdateMap userId r) }

/-- Modelled from the spec: processing of a single remote event during
pull: cancelled with a mapping deletes the local event and the mapping
row; cancelled without a mapping is ignored; no mapping creates a local
event (accepting the date-only fallback, skipping an event with neither a
timed nor a date-only start and end); an existing mapping with an equal
change-token is the loop-prevention no-op; differing tokens update the
local event and the stored token. -/
def pullOne (userId : String) (now : Nat) (acc : SyncState × PullCounts)
    (r : RemoteEvent) : SyncState × PullCounts :=
  let s := acc.1
  let c := acc.2
  match r.status with
  | GStatus.cancelled =>
    match findMapping s userId r.id with
    | some m => (pullDelete userId r m s, { c with deleted := c.deleted + 1 })
    | none => (s, c)
  | GStatus.confirmed =>
    match findMapping s userId r.id with
    | none =>
        if r.gstart.valid && r.gend.valid then
          (pullCreate userId now r s, { c with pulled := c.pulled + 1 })
        else (s, c)
    | some m =>
        if m.googleEtag == r.etag then (s, c)
        else (pullUpdate userId now r m s, { c with updated := c.updated + 1 })

/-- Modelled from the spec: `syncPull` for the sync engine, which is
missing from the sources (only its tests are present).  A missing
Connection is the non-fatal ConfigurationError zero-count no-op;
otherwise every listed remote event is processed in order. -/
def syncPull (userId : String) (now : Nat) (s : SyncState) :
    SyncState × PullCounts :=
  match lookupConnection s userId with
  | none => (s, { pulled := 0, updated := 0, deleted := 0 })
  | some _ =>
      (listAllEvents s userId).foldl (pullOne userId now)
        (s, { pulled := 0, updated := 0, deleted := 0 })

/-! ## Sync engine: push (local to remote) -/

/-- Modelled from the spec: the pure field transform from a local event to
the provider event shape (title to summary and so on). -/
def localToRemote (gid : Nat) (etag : Nat) (now : Nat) (e : LocalEvent) :
    RemoteEvent :=
  { id := gid
    summary := some e.title
    description := e.description
    location := e.locationName
    gstart := { dateTime := some e.startAt, date := none, timeZone := some e.timezone }
    gend := { dateTime := some e.endAt, date := none, timeZone := some e.timezone }
    etag := etag
    updated := some now
    status := GStatus.confirmed }

/-- Modelled from the spec: the push candidate query, filtering local
events to the user, source KODA (the structural invariant excluding
pulled-in GOOGLE events) and syncToGoogle true. -/
def pushCandidates (userId : String) (s : SyncState) : List LocalEvent :=
  s.events.filter
    (fun e =>
      e.ownerId == userId && decide (e.source = EventSource.KODA) && e.syncToGoogle)

/-- Modelled from the spec: the store and provider effect of a push insert
for an unmapped candidate: the provider receives the event and returns a
fresh id and change-token, and a mapping with lastPushedAt now is
created. -/
def pushInsert (userId : String) (now : Nat) (e : LocalEvent) (s : SyncState) :
    SyncState :=
  { s with
    remote := s.remote ++
      [(userId, localToRemote s.nextRemoteId s.nextRemoteId now e)]
    mappings := s.mappings ++
      [{ userId := userId
         kodaEventId := e.id
         googleEventId := s.nextRemoteId
         googleEtag := s.nextRemoteId
         lastPushedAt := some now }]
    nextRemoteId := s.nextRemoteId + 1 }

/-- The per-row mapping refresh of a push update: the row keyed by
(userId, local id) receives the fresh change-token and push instant. -/
def pushUpdateMap (userId : String) (eid : Nat) (etag : Nat) (now : Nat)
    (m2 : Mapping) : Mapping :=
  if m2.userId == userId && m2.kodaEventId == eid then
    { m2 with googleEtag := etag, lastPushedAt := some now }
  else m2

/-- The per-entry provider refresh of a push update: the remote event with
the mapped id receives the local fields and a fresh change-token. -/
def pushUpdateRemote (userId : String) (gid : Nat) (etag : Nat) (now : Nat)
    (e : LocalEvent) (p : String × RemoteEvent) : String × RemoteEvent :=
  if p.1 == userId && p.2.id == gid then (p.1, localToRemote gid etag now e)
  else p

/-- Modelled from the spec: the store and provider effect of a push update
for a changed mapped candidate. -/
def pushUpdate (userId : String) (now : Nat) (e : LocalEvent) (m : Mapping)
    (s : SyncState) : SyncState :=
  { s with
    remote := s.remote.map
      (pushUpdateRemote userId m.googleEventId s.nextRemoteId now e)
    mappings := s.mappings.map (pushUpdateMap userId e.id s.nextRemoteId now)
    nextRemoteId := s.nextRemoteId + 1 }

/-- Modelled from the spec: processing of a single candidate during push.
See the module doc of `pushInsert` and `pushUpdate` for the two mutating
branches; an unchanged candidate is the loop-prevention no-op. -/
def pushOne (userId : String) (now : Nat) (acc : SyncState × PushCounts)
    (e : LocalEvent) : SyncState × PushCounts :=
  let s := acc.1
  let c := acc.2
  match findMappingByKoda s userId e.id with
  | none => (pushInsert userId now e s, { c with pushed := c.pushed + 1 })
  | some m =>
      if (match m.lastPushedAt with
          | some t => decide (e.updatedAt ≤ t)
          | none => false) then
        (s, c)
      else (pushUpdate userId now e m s, { c with updated := c.updated + 1 })

/-- Modelled from the spec: `syncPush` for the sync engine, which is
missing from the sources (only its tests are present).  A missing
Connection or a disabled push flag returns zero counts without contacting
the provider; otherwise every candidate is processed in order. -/
def syncPush (userId : String) (now : Nat) (s : SyncState) :
    SyncState × PushCounts :=
  match lookupConnection s userId with
  | none => (s, { pushed := 0, updated := 0 })
  | some conn =>
      if conn.pushEnabled then
        (pushCandidates userId s).foldl (pushOne userId now)
          (s, { pushed := 0, updated := 0 })
      else (s, { pushed := 0, updated := 0 })

/-- Modelled from the spec: the Connection lastSyncedAt upsert performed
at the end of syncAll. -/
def upsertLastSynced (userId : String) (now : Nat) (s : SyncState) : SyncState :=
  { s with
    connections := s.connections.map
      (fun p =>
        if p.1 == userId then (p.1, { p.2 with lastSyncedAt := some now })
        else p) }

/-- Modelled from the spec: `syncAll` runs pull then push in that fixed
order, upserts the Connection lastSyncedAt, and merges the counts. -/
def syncAll (userId : String) (now : Nat) (s : SyncState) :
    SyncState × SyncCounts :=
  let pr := syncPull userId now s
  let sr := syncPush userId now pr.1
  (upsertLastSynced userId now sr.1,
   { pulled := pr.2.pulled
     updated := pr.2.updated + sr.2.updated
     deleted := pr.2.deleted
     pushed := sr.2.pushed })

/-! ## List lookup lemmas for the key-based store model -/

/-- Filtering by a predicate implied by the search predicate does not
change a first-match lookup. -/
theorem find?_filter_of_imp {α : Type} (l : List α) (p q : α → Bool)
    (h : ∀ x, p x = true → q x = true) :
    (l.filter q).find? p = l.find? p := by
  induction l with
  | nil => rfl
  | cons x t ih =>
      cases hp : p x with
      | true =>
          rw [List.filter_cons_of_pos (h x hp), List.find?_cons_of_pos _ hp,
            List.find?_cons_of_pos _ hp]
      | false =>
          cases hq : q x with
          | true =>
              rw [List.filter_cons_of_pos hq, List.find?_cons_of_neg _ (by simp [hp]),
                List.find?_cons_of_neg _ (by simp [hp]), ih]
          | false =>
              rw [List.filter_cons_of_neg (by simp [hq]),
                List.find?_cons_of_neg _ (by simp [hp]), ih]

/-- Removing exactly the matches of a predicate empties its first-match
lookup. -/
theorem find?_filter_not_self {α : Type} (l : List α) (p : α → Bool) :
    (l.filter (fun x => !(p x))).find? p = none := by
  rw [List.find?_eq_none]
  intro x hx
  have hm := (List.mem_filter.mp hx).2
  simp only [Bool.not_eq_true'] at hm
  simp [hm]

/-- Mapping by a function that preserves the search predicate maps the
first-match lookup. -/
theorem find?_map_key {α : Type} (l : List α) (g : α → α) (p : α → Bool)
    (hpg : ∀ x, p (g x) = p x) :
    (l.map g).find? p = (l.find? p).map g := by
  rw [List.find?_map]
  have : p ∘ g = p := funext hpg
  rw [this]

/-- Mapping by a function that preserves the search predicate and fixes
every match does not change a first-match lookup. -/
theorem find?_map_key_id {α : Type} (l : List α) (g : α → α) (p : α → Bool)
    (hpg : ∀ x, p (g x) = p x) (hfix : ∀ x, p x = true → g x = x) :
    (l.map g).find? p = l.find? p := by
  rw [find?_map_key l g p hpg]
  cases hf : l.find? p with
  | none => rfl
  | some y => simp [hfix y (List.find?_some hf)]

/-- A first-match lookup over a list with duplicate-free keys returns the
unique member carrying the searched key. -/
theorem find?_eq_some_of_nodup_key {α β : Type} (l : List α) (p : α → Bool)
    (key : α → β) (m : α)
    (hm : m ∈ l) (hpm : p m = true)
    (hkey : ∀ x, p x = true → key x = key m)
    (hnd : (l.map key).Nodup) : l.find? p = some m := by
  cases hf : l.find? p with
  | none =>
      have := List.find?_eq_none.mp hf m hm
      exact absurd hpm this
  | some y =>
      have hy := List.find?_some hf
      have hym := List.mem_of_find?_eq_some hf
      have : y = m := List.inj_on_of_nodup_map hnd hym hm (hkey y hy)
      rw [this]

/-- Appending an element absent from a duplicate-free list keeps it
duplicate-free. -/
theorem nodup_append_singleton {α : Type} (l : List α) (a : α)
    (hnd : l.Nodup) (ha : a ∉ l) : (l ++ [a]).Nodup := by
  rw [List.nodup_append]
  refine ⟨hnd, List.nodup_singleton a, ?_⟩
  intro x hx hxa
  rw [List.mem_singleton] at hxa
  subst hxa
  exact ha hx

/-- Appending one element with a fresh key keeps the key list
duplicate-free. -/
theorem nodup_key_append_one {α β : Type} (l : List α) (a : α) (key : α → β)
    (hnd : (l.map key).Nodup) (hfresh : ∀ x ∈ l, key x ≠ key a) :
    ((l ++ [a]).map key).Nodup := by
  rw [List.map_append]
  apply nodup_append_singleton _ _ hnd
  intro hmem
  obtain ⟨x, hx, hkey⟩ := List.mem_map.mp hmem
  exact hfresh x hx hkey

/-- Mapping by a key-preserving function keeps the key list
duplicate-free. -/
theorem nodup_key_map {α β : Type} (l : List α) (g : α → α) (key : α → β)
    (hnd : (l.map key).Nodup) (hkey : ∀ x, key (g x) = key x) :
    ((l.map g).map key).Nodup := by
  rw [List.map_map, show key ∘ g = key from funext hkey]
  exact hnd

/-- Left component of a true boolean conjunction. -/
theorem band_true_left {a b : Bool} (h : (a && b) = true) : a = true := by
  simp only [Bool.and_eq_true] at h
  exact h.1

/-- Right component of a true boolean conjunction. -/
theorem band_true_right {a b : Bool} (h : (a && b) = true) : b = true := by
  simp only [Bool.and_eq_true] at h
  exact h.2

/-! ## Sync engine: stability predicates and the well-formedness invariant -/

/-- A remote event is pull-stable in a state when processing it by pull is
guaranteed to be a no-op: a cancelled event with no mapping, a confirmed
event with no mapping and no valid times, or a confirmed event whose
mapping stores an equal change-token. -/
def PullStable (userId : String) (s : SyncState) (r : RemoteEvent) : Prop :=
  (r.status = GStatus.cancelled ∧ findMapping s userId r.id = none)
  ∨ (r.status = GStatus.confirmed ∧ findMapping s userId r.id = none ∧
      (r.gstart.valid && r.gend.valid) = false)
  ∨ (r.status = GStatus.confirmed ∧
      ∃ m, findMapping s userId r.id = some m ∧ m.googleEtag = r.etag)

/-- A local event is push-stable in a state when processing it by push is
guaranteed to be a no-op: it has a mapping whose lastPushedAt is at least
its updatedAt. -/
def PushStable (userId : String) (s : SyncState) (e : LocalEvent) : Prop :=
  ∃ m t, findMappingByKoda s userId e.id = some m ∧
    m.lastPushedAt = some t ∧ e.updatedAt ≤ t

/-- Pull processing of a pull-stable remote event is a no-op. -/
theorem pullOne_of_pullStable (userId : String) (s : SyncState) (r : RemoteEvent)
    (h : PullStable userId s r) (now : Nat) (c : PullCounts) :
    pullOne userId now (s, c) r = (s, c) := by
  rcases h with ⟨hst, hm⟩ | ⟨hst, hm, hv⟩ | ⟨hst, m, hm, he⟩
  · simp [pullOne, hst, hm]
  · simp [pullOne, hst, hm, hv]
  · simp [pullOne, hst, hm, he]

/-- Push processing of a push-stable local event is a no-op. -/
theorem pushOne_of_pushStable (userId : String) (s : SyncState) (e : LocalEvent)
    (h : PushStable userId s e) (now : Nat) (c : PushCounts) :
    pushOne userId now (s, c) e = (s, c) := by
  obtain ⟨m, t, hm, hlp, hle⟩ := h
  simp [pushOne, hm, hlp, hle]

/-- Well-formedness of a sync state for a user at a sync instant: listed
remote ids are duplicate-free; remote ids and mapping remote ids are
below the provider fresh-id counter; mapping local ids and event ids are
below the local fresh-id counter; mapping natural keys are duplicate-free
on both sides; event ids are duplicate-free; and no local event carries a
modification instant in the future of the sync instant. -/
structure SyncInv (userId : String) (now : Nat) (s : SyncState) : Prop where
  remoteNodup : ((listAllEvents s userId).map RemoteEvent.id).Nodup
  remoteLt : ∀ p ∈ s.remote, p.2.id < s.nextRemoteId
  mapGidLt : ∀ m ∈ s.mappings, m.googleEventId < s.nextRemoteId
  mapKodaLt : ∀ m ∈ s.mappings, m.kodaEventId < s.nextLocalId
  gidKeysNodup : (s.mappings.map (fun m => (m.userId, m.googleEventId))).Nodup
  kodaKeysNodup : (s.mappings.map (fun m => (m.userId, m.kodaEventId))).Nodup
  eventsNodup : (s.events.map LocalEvent.id).Nodup
  eventLt : ∀ e ∈ s.events, e.id < s.nextLocalId
  updatedLe : ∀ e ∈ s.events, e.updatedAt ≤ now

/-! ## Sync engine: branch equations for pull processing -/

/-- Pull branch equation: cancelled with a mapping. -/
theorem pullOne_eq_delete (userId : String) (now : Nat) (s : SyncState)
    (c : PullCounts) (r : RemoteEvent) (m : Mapping)
    (hst : r.status = GStatus.cancelled)
    (hm : findMapping s userId r.id = some m) :
    pullOne userId now (s, c) r =
      (pullDelete userId r m s, { c with deleted := c.deleted + 1 }) := by
  simp [pullOne, hst, hm]

/-- Pull branch equation: cancelled without a mapping. -/
theorem pullOne_eq_cancel_none (userId : String) (now : Nat) (s : SyncState)
    (c : PullCounts) (r : RemoteEvent)
    (hst : r.status = GStatus.cancelled)
    (hm : findMapping s userId r.id = none) :
    pullOne userId now (s, c) r = (s, c) := by
  simp [pullOne, hst, hm]

/-- Pull branch equation: confirmed, unmapped, valid times. -/
theorem pullOne_eq_create (userId : String) (now : Nat) (s : SyncState)
    (c : PullCounts) (r : RemoteEvent)
    (hst : r.status = GStatus.confirmed)
    (hm : findMapping s userId r.id = none)
    (hv : (r.gstart.valid && r.gend.valid) = true) :
    pullOne userId now (s, c) r =
      (pullCreate userId now r s, { c with pulled := c.pulled + 1 }) := by
  simp [pullOne, hst, hm, hv]

/-- Pull branch equation: confirmed, unmapped, invalid times. -/
theorem pullOne_eq_invalid (userId : String) (now : Nat) (s : SyncState)
    (c : PullCounts) (r : RemoteEvent)
    (hst : r.status = GStatus.confirmed)
    (hm : findMapping s userId r.id = none)
    (hv : (r.gstart.valid && r.gend.valid) = false) :
    pullOne userId now (s, c) r = (s, c) := by
  simp [pullOne, hst, hm, hv]

/-- Pull branch equation: confirmed, mapped, changed token. -/
theorem pullOne_eq_update (userId : String) (now : Nat) (s : SyncState)
    (c : PullCounts) (r : RemoteEvent) (m : Mapping)
    (hst : r.status = GStatus.confirmed)
    (hm : findMapping s userId r.id = some m)
    (he : ¬ m.googleEtag = r.etag) :
    pullOne userId now (s, c) r =
      (pullUpdate userId now r m s, { c with updated := c.updated + 1 }) := by
  simp [pullOne, hst, hm, he]

/-! ## Sync engine: pull transform lemmas -/

/-- Listing remote events only reads the provider store. -/
theorem listAllEvents_congr (s s2 : SyncState) (userId : String)
    (h : s2.remote = s.remote) :
    listAllEvents s2 userId = listAllEvents s userId := by
  unfold listAllEvents
  rw [h]

/-- Mapping lookup only reads the mapping store. -/
theorem findMapping_congr (s s2 : SyncState) (userId : String) (gid : Nat)
    (h : s2.mappings = s.mappings) :
    findMapping s2 userId gid = findMapping s userId gid := by
  unfold findMapping
  rw [h]

/-- Deleting a remote event mapping empties its lookup. -/
theorem findMapping_pullDelete_self (userId : String) (r : RemoteEvent)
    (m : Mapping) (s : SyncState) :
    findMapping (pullDelete userId r m s) userId r.id = none :=
  find?_filter_not_self s.mappings
    (fun m2 => m2.userId == userId && m2.googleEventId == r.id)

/-- Pull deletion leaves other remote event lookups unchanged. -/
theorem findMapping_pullDelete_other (userId : String) (r : RemoteEvent)
    (m : Mapping) (s : SyncState) (gid : Nat) (h : gid ≠ r.id) :
    findMapping (pullDelete userId r m s) userId gid =
      findMapping s userId gid := by
  apply find?_filter_of_imp
  intro x hx
  simp only [Bool.and_eq_true, beq_iff_eq] at hx
  simp only [Bool.not_eq_true']
  simp [hx.2, h]

/-- Pull deletion preserves state well-formedness. -/
theorem inv_pullDelete (userId : String) (now : Nat) (r : RemoteEvent)
    (m : Mapping) (s : SyncState) (hinv : SyncInv userId now s) :
    SyncInv userId now (pullDelete userId r m s) := by
  constructor
  · exact hinv.remoteNodup
  · exact hinv.remoteLt
  · intro m2 hm2
    exact hinv.mapGidLt m2 (List.mem_of_mem_filter hm2)
  · intro m2 hm2
    exact hinv.mapKodaLt m2 (List.mem_of_mem_filter hm2)
  · exact List.Nodup.sublist ((List.filter_sublist _).map _) hinv.gidKeysNodup
  · exact List.Nodup.sublist ((List.filter_sublist _).map _) hinv.kodaKeysNodup
  · exact List.Nodup.sublist ((List.filter_sublist _).map _) hinv.eventsNodup
  · intro e he
    exact hinv.eventLt e (List.mem_of_mem_filter he)
  · intro e he
    exact hinv.updatedLe e (List.mem_of_mem_filter he)

/-- Pull creation stores a mapping carrying the remote change-token. -/
theorem findMapping_pullCreate_self (userId : String) (now : Nat)
    (r : RemoteEvent) (s : SyncState)
    (hm : findMapping s userId r.id = none) :
    findMapping (pullCreate userId now r s) userId r.id =
      some { userId := userId, kodaEventId := s.nextLocalId,
             googleEventId := r.id, googleEtag := r.etag,
             lastPushedAt := none } := by
  show (s.mappings ++ [_]).find? _ = _
  rw [List.find?_append, show s.mappings.find?
    (fun m2 => m2.userId == userId && m2.googleEventId == r.id) = none from hm]
  simp

/-- Pull creation leaves other remote event lookups unchanged. -/
theorem findMapping_pullCreate_other (userId : String) (now : Nat)
    (r : RemoteEvent) (s : SyncState) (gid : Nat) (h : gid ≠ r.id) :
    findMapping (pullCreate userId now r s) userId gid =
      findMapping s userId gid := by
  unfold findMapping pullCreate
  simp [List.find?_append, Ne.symm h]

/-- Pull creation preserves state well-formedness. -/
theorem inv_pullCreate (userId : String) (now : Nat) (r : RemoteEvent)
    (s : SyncState) (hinv : SyncInv userId now s)
    (hlt : r.id < s.nextRemoteId)
    (hm : findMapping s userId r.id = none) :
    SyncInv userId now (pullCreate userId now r s) := by
  constructor
  · exact hinv.remoteNodup
  · exact hinv.remoteLt
  · intro m2 hm2
    rcases List.mem_append.mp hm2 with h1 | h2
    · exact hinv.mapGidLt m2 h1
    · rw [List.mem_singleton] at h2
      subst h2
      exact hlt
  · intro m2 hm2
    rcases List.mem_append.mp hm2 with h1 | h2
    · exact Nat.lt_succ_of_lt (hinv.mapKodaLt m2 h1)
    · rw [List.mem_singleton] at h2
      subst h2
      exact Nat.lt_succ_self _
  · apply nodup_key_append_one s.mappings _ _ hinv.gidKeysNodup
    intro m2 hm2 hkey
    have h1 : m2.userId = userId := congrArg Prod.fst hkey
    have h2 : m2.googleEventId = r.id := congrArg Prod.snd hkey
    have := List.find?_eq_none.mp hm m2 hm2
    apply this
    simp [h1, h2]
  · apply nodup_key_append_one s.mappings _ _ hinv.kodaKeysNodup
    intro m2 hm2 hkey
    have h2 : m2.kodaEventId = s.nextLocalId := congrArg Prod.snd hkey
    exact absurd h2 (Nat.ne_of_lt (hinv.mapKodaLt m2 hm2))
  · apply nodup_key_append_one s.events _ _ hinv.eventsNodup
    intro e he hid
    exact absurd hid (Nat.ne_of_lt (hinv.eventLt e he))
  · intro e he
    rcases List.mem_append.mp he with h1 | h2
    · exact Nat.lt_succ_of_lt (hinv.eventLt e h1)
    · rw [List.mem_singleton] at h2
      subst h2
      exact Nat.lt_succ_self _
  · intro e he
    rcases List.mem_append.mp he with h1 | h2
    · exact hinv.updatedLe e h1
    · rw [List.mem_singleton] at h2
      subst h2
      exact Nat.le_refl now

/-- The pull update row refresh preserves both natural keys. -/
theorem pullUpdateMap_keys (userId : String) (r : RemoteEvent) (m2 : Mapping) :
    (pullUpdateMap userId r m2).userId = m2.userId ∧
    (pullUpdateMap userId r m2).googleEventId = m2.googleEventId ∧
    (pullUpdateMap userId r m2).kodaEventId = m2.kodaEventId := by
  unfold pullUpdateMap
  split <;> exact ⟨rfl, rfl, rfl⟩

/-- The pull update event refresh preserves the event id. -/
theorem pullUpdateEvent_id (now : Nat) (r : RemoteEvent) (kid : Nat)
    (e : LocalEvent) : (pullUpdateEvent now r kid e).id = e.id := by
  unfold pullUpdateEvent
  split
  · rfl
  · rfl

/-- Pull update rewrites the token of the looked-up mapping row. -/
theorem findMapping_pullUpdate_self (userId : String) (now : Nat)
    (r : RemoteEvent) (m : Mapping) (s : SyncState)
    (hm : findMapping s userId r.id = some m) :
    findMapping (pullUpdate userId now r m s) userId r.id =
      some { m with googleEtag := r.etag } := by
  have hm' : s.mappings.find?
      (fun m2 => m2.userId == userId && m2.googleEventId == r.id) = some m := hm
  have hpm : (m.userId == userId && m.googleEventId == r.id) = true := by
    have h0 := List.find?_some hm'
    exact h0
  show (s.mappings.map (pullUpdateMap userId r)).find?
    (fun m2 => m2.userId == userId && m2.googleEventId == r.id) = _
  rw [find?_map_key _ _ _ (fun x => by
    have hk := pullUpdateMap_keys userId r x
    simp [hk.1, hk.2.1]), hm']
  simp [pullUpdateMap, hpm]

/-- Pull update leaves other remote event lookups unchanged. -/
theorem findMapping_pullUpdate_other (userId : String) (now : Nat)
    (r : RemoteEvent) (m : Mapping) (s : SyncState) (gid : Nat)
    (h : gid ≠ r.id) :
    findMapping (pullUpdate userId now r m s) userId gid =
      findMapping s userId gid := by
  apply find?_map_key_id
  · intro x
    have hk := pullUpdateMap_keys userId r x
    simp [hk.1, hk.2.1]
  · intro x hx
    simp only [Bool.and_eq_true, beq_iff_eq] at hx
    unfold pullUpdateMap
    rw [if_neg]
    simp [hx.2, h]

/-- Pull update preserves state well-formedness. -/
theorem inv_pullUpdate (userId : String) (now : Nat) (r : RemoteEvent)
    (m : Mapping) (s : SyncState) (hinv : SyncInv userId now s) :
    SyncInv userId now (pullUpdate userId now r m s) := by
  constructor
  · exact hinv.remoteNodup
  · exact hinv.remoteLt
  · intro m2 hm2
    obtain ⟨m0, hm0, rfl⟩ := List.mem_map.mp hm2
    rw [(pullUpdateMap_keys userId r m0).2.1]
    exact hinv.mapGidLt m0 hm0
  · intro m2 hm2
    obtain ⟨m0, hm0, rfl⟩ := List.mem_map.mp hm2
    rw [(pullUpdateMap_keys userId r m0).2.2]
    exact hinv.mapKodaLt m0 hm0
  · apply nodup_key_map s.mappings _ _ hinv.gidKeysNodup
    intro m0
    have hk := pullUpdateMap_keys userId r m0
    simp [hk.1, hk.2.1]
  · apply nodup_key_map s.mappings _ _ hinv.kodaKeysNodup
    intro m0
    have hk := pullUpdateMap_keys userId r m0
    simp [hk.1, hk.2.2]
  · apply nodup_key_map s.events _ _ hinv.eventsNodup
    intro e
    exact pullUpdateEvent_id now r m.kodaEventId e
  · intro e he
    obtain ⟨e0, he0, rfl⟩ := List.mem_map.mp he
    rw [pullUpdateEvent_id]
    exact hinv.eventLt e0 he0
  · intro e he
    obtain ⟨e0, he0, rfl⟩ := List.mem_map.mp he
    unfold pullUpdateEvent
    split
    · exact Nat.le_refl now
    · exact hinv.updatedLe e0 he0

/-- Pull branch equation: confirmed, mapped, unchanged token. -/
theorem pullOne_eq_etag (userId : String) (now : Nat) (s : SyncState)
    (c : PullCounts) (r : RemoteEvent) (m : Mapping)
    (hst : r.status = GStatus.confirmed)
    (hm : findMapping s userId r.id = some m)
    (he : m.googleEtag = r.etag) :
    pullOne userId now (s, c) r = (s, c) := by
  simp [pullOne, hst, hm, he]

/-- Pull stability depends only on the mapping lookup at the remote id. -/
theorem pullStable_transfer (userId : String) (s s2 : SyncState)
    (r : RemoteEvent)
    (h : findMapping s2 userId r.id = findMapping s userId r.id)
    (hs : PullStable userId s r) : PullStable userId s2 r := by
  unfold PullStable at hs ⊢
  rw [h]
  exact hs

/-- One pull processing step preserves the provider store, the
connections, the provider counter and well-formedness, leaves every
other mapping lookup unchanged, and leaves the processed remote event
pull-stable. -/
theorem pullOne_step (userId : String) (now : Nat) (s : SyncState)
    (c : PullCounts) (r : RemoteEvent)
    (hinv : SyncInv userId now s) (hlt : r.id < s.nextRemoteId) :
    (pullOne userId now (s, c) r).1.remote = s.remote
    ∧ (pullOne userId now (s, c) r).1.connections = s.connections
    ∧ (pullOne userId now (s, c) r).1.nextRemoteId = s.nextRemoteId
    ∧ SyncInv userId now (pullOne userId now (s, c) r).1
    ∧ PullStable userId (pullOne userId now (s, c) r).1 r
    ∧ ∀ gid, gid ≠ r.id →
        findMapping (pullOne userId now (s, c) r).1 userId gid =
          findMapping s userId gid := by
  cases hst : r.status with
  | cancelled =>
      cases hm : findMapping s userId r.id with
      | some m =>
          rw [pullOne_eq_delete userId now s c r m hst hm]
          exact ⟨rfl, rfl, rfl, inv_pullDelete userId now r m s hinv,
            Or.inl ⟨hst, findMapping_pullDelete_self userId r m s⟩,
            fun gid hg => findMapping_pullDelete_other userId r m s gid hg⟩
      | none =>
          rw [pullOne_eq_cancel_none userId now s c r hst hm]
          exact ⟨rfl, rfl, rfl, hinv, Or.inl ⟨hst, hm⟩, fun gid _ => rfl⟩
  | confirmed =>
      cases hm : findMapping s userId r.id with
      | none =>
          cases hv : (r.gstart.valid && r.gend.valid) with
          | true =>
              rw [pullOne_eq_create userId now s c r hst hm hv]
              exact ⟨rfl, rfl, rfl, inv_pullCreate userId now r s hinv hlt hm,
                Or.inr (Or.inr ⟨hst, _,
                  findMapping_pullCreate_self userId now r s hm, rfl⟩),
                fun gid hg => findMapping_pullCreate_other userId now r s gid hg⟩
          | false =>
              rw [pullOne_eq_invalid userId now s c r hst hm hv]
              exact ⟨rfl, rfl, rfl, hinv, Or.inr (Or.inl ⟨hst, hm, hv⟩),
                fun gid _ => rfl⟩
      | some m =>
          by_cases he : m.googleEtag = r.etag
          · rw [pullOne_eq_etag userId now s c r m hst hm he]
            exact ⟨rfl, rfl, rfl, hinv, Or.inr (Or.inr ⟨hst, m, hm, he⟩),
              fun gid _ => rfl⟩
          · rw [pullOne_eq_update userId now s c r m hst hm he]
            exact ⟨rfl, rfl, rfl, inv_pullUpdate userId now r m s hinv,
              Or.inr (Or.inr ⟨hst, _,
                findMapping_pullUpdate_self userId now r m s hm, rfl⟩),
              fun gid hg => findMapping_pullUpdate_other userId now r m s gid hg⟩

/-- The pull fold over a duplicate-free list of fresh-bounded remote
events preserves the provider store, the connections, the provider
counter and well-formedness, leaves lookups of unlisted remote ids
unchanged, and leaves every processed remote event pull-stable. -/
theorem pull_fold (userId : String) (now : Nat) (L : List RemoteEvent) :
    ∀ (s : SyncState) (c : PullCounts),
      SyncInv userId now s →
      (L.map RemoteEvent.id).Nodup →
      (∀ r ∈ L, r.id < s.nextRemoteId) →
      (L.foldl (pullOne userId now) (s, c)).1.remote = s.remote
      ∧ (L.foldl (pullOne userId now) (s, c)).1.connections = s.connections
      ∧ (L.foldl (pullOne userId now) (s, c)).1.nextRemoteId = s.nextRemoteId
      ∧ SyncInv userId now (L.foldl (pullOne userId now) (s, c)).1
      ∧ (∀ r ∈ L, PullStable userId (L.foldl (pullOne userId now) (s, c)).1 r)
      ∧ ∀ gid, gid ∉ L.map RemoteEvent.id →
          findMapping (L.foldl (pullOne userId now) (s, c)).1 userId gid =
            findMapping s userId gid := by
  induction L with
  | nil =>
      intro s c hinv _ _
      exact ⟨rfl, rfl, rfl, hinv, by simp, fun gid _ => rfl⟩
  | cons r t ih =>
      intro s c hinv hnd hlt
      obtain ⟨hrem, hconn, hnr, hinv1, hstab1, hframe1⟩ :=
        pullOne_step userId now s c r hinv (hlt r (List.mem_cons_self r t))
      have hnd' : (r.id :: t.map RemoteEvent.id).Nodup := hnd
      have hhead : r.id ∉ t.map RemoteEvent.id := (List.nodup_cons.mp hnd').1
      have hndt : (t.map RemoteEvent.id).Nodup := (List.nodup_cons.mp hnd').2
      have hltt : ∀ r2 ∈ t, r2.id < (pullOne userId now (s, c) r).1.nextRemoteId := by
        intro r2 hr2
        rw [hnr]
        exact hlt r2 (List.mem_cons_of_mem r hr2)
      obtain ⟨ihrem, ihconn, ihnr, ihinv, ihstab, ihframe⟩ :=
        ih (pullOne userId now (s, c) r).1 (pullOne userId now (s, c) r).2
          hinv1 hndt hltt
      rw [List.foldl_cons]
      refine ⟨ihrem.trans hrem, ihconn.trans hconn, ihnr.trans hnr, ihinv, ?_, ?_⟩
      · intro r2 hr2
        rcases List.mem_cons.mp hr2 with rfl | hr2t
        · exact pullStable_transfer userId _ _ r2 (ihframe r2.id hhead) hstab1
        · exact ihstab r2 hr2t
      · intro gid hg
        have hg' : gid ∉ r.id :: t.map RemoteEvent.id := hg
        have h1 : gid ≠ r.id := fun h => hg' (h ▸ List.mem_cons_self _ _)
        have h2 : gid ∉ t.map RemoteEvent.id :=
          fun h => hg' (List.mem_cons_of_mem _ h)
        exact (ihframe gid h2).trans (hframe1 gid h1)

/-! ## Sync engine: push transform lemmas -/

/-- Mapping by a function that preserves the search predicate and fixes
every matching member does not change a first-match lookup. -/
theorem find?_map_key_id_mem {α : Type} (l : List α) (g : α → α) (p : α → Bool)
    (hpg : ∀ x, p (g x) = p x) (hfix : ∀ x ∈ l, p x = true → g x = x) :
    (l.map g).find? p = l.find? p := by
  induction l with
  | nil => rfl
  | cons x t ih =>
      rw [List.map_cons]
      cases hp : p x with
      | true =>
          rw [List.find?_cons_of_pos _ ((hpg x).trans hp),
            List.find?_cons_of_pos _ hp,
            hfix x (List.mem_cons_self x t) hp]
      | false =>
          rw [List.find?_cons_of_neg _ (by simp [hpg, hp]),
            List.find?_cons_of_neg _ (by simp [hp]),
            ih (fun y hy => hfix y (List.mem_cons_of_mem x hy))]

/-- A listed remote event of a user is a provider store entry of that
user. -/
theorem mem_listAllEvents (s : SyncState) (userId : String) (r : RemoteEvent)
    (hr : r ∈ listAllEvents s userId) : (userId, r) ∈ s.remote := by
  unfold listAllEvents at hr
  obtain ⟨p, hp, hpr⟩ := List.mem_map.mp hr
  obtain ⟨u, r0⟩ := p
  have hf := List.mem_filter.mp hp
  have hu : u = userId := by
    have := hf.2
    simpa using this
  subst hu
  cases hpr
  exact hf.1

/-- A listed remote event has an id below the provider counter. -/
theorem listAllEvents_id_lt (userId : String) (now : Nat) (s : SyncState)
    (hinv : SyncInv userId now s) (r : RemoteEvent)
    (hr : r ∈ listAllEvents s userId) : r.id < s.nextRemoteId :=
  hinv.remoteLt (userId, r) (mem_listAllEvents s userId r hr)

/-- Push insertion appends the provider copy to the user's remote
listing. -/
theorem listAllEvents_pushInsert (userId : String) (now : Nat)
    (e : LocalEvent) (s : SyncState) :
    listAllEvents (pushInsert userId now e s) userId =
      listAllEvents s userId ++
        [localToRemote s.nextRemoteId s.nextRemoteId now e] := by
  unfold listAllEvents pushInsert
  simp [List.filter_append]

/-- Push insertion stores a mapping for the candidate. -/
theorem findMappingByKoda_pushInsert_self (userId : String) (now : Nat)
    (e : LocalEvent) (s : SyncState)
    (hm : findMappingByKoda s userId e.id = none) :
    findMappingByKoda (pushInsert userId now e s) userId e.id =
      some { userId := userId, kodaEventId := e.id,
             googleEventId := s.nextRemoteId, googleEtag := s.nextRemoteId,
             lastPushedAt := some now } := by
  show (s.mappings ++ [_]).find? _ = _
  rw [List.find?_append, show s.mappings.find?
    (fun m2 => m2.userId == userId && m2.kodaEventId == e.id) = none from hm]
  simp

/-- Push insertion leaves other local id lookups unchanged. -/
theorem findMappingByKoda_pushInsert_other (userId : String) (now : Nat)
    (e : LocalEvent) (s : SyncState) (kid : Nat) (h : kid ≠ e.id) :
    findMappingByKoda (pushInsert userId now e s) userId kid =
      findMappingByKoda s userId kid := by
  unfold findMappingByKoda pushInsert
  simp [List.find?_append, Ne.symm h]

/-- Push insertion stores a mapping for the fresh remote id. -/
theorem findMapping_pushInsert_self (userId : String) (now : Nat)
    (e : LocalEvent) (s : SyncState)
    (hg : ∀ m2 ∈ s.mappings, m2.googleEventId < s.nextRemoteId) :
    findMapping (pushInsert userId now e s) userId s.nextRemoteId =
      some { userId := userId, kodaEventId := e.id,
             googleEventId := s.nextRemoteId, googleEtag := s.nextRemoteId,
             lastPushedAt := some now } := by
  show (s.mappings ++ [_]).find? _ = _
  rw [List.find?_append]
  have hnone : s.mappings.find?
      (fun m2 => m2.userId == userId && m2.googleEventId == s.nextRemoteId) =
        none := by
    rw [List.find?_eq_none]
    intro m2 hm2
    simp [Nat.ne_of_lt (hg m2 hm2)]
  rw [hnone]
  simp

/-- Push insertion leaves remote id lookups below the counter unchanged. -/
theorem findMapping_pushInsert_other (userId : String) (now : Nat)
    (e : LocalEvent) (s : SyncState) (gid : Nat) (h : gid ≠ s.nextRemoteId) :
    findMapping (pushInsert userId now e s) userId gid =
      findMapping s userId gid := by
  unfold findMapping pushInsert
  simp [List.find?_append, Ne.symm h]

/-- Push insertion preserves state well-formedness. -/
theorem inv_pushInsert (userId : String) (now : Nat) (e : LocalEvent)
    (s : SyncState) (hinv : SyncInv userId now s)
    (he_lt : e.id < s.nextLocalId)
    (hm : findMappingByKoda s userId e.id = none) :
    SyncInv userId now (pushInsert userId now e s) := by
  constructor
  · rw [listAllEvents_pushInsert]
    apply nodup_key_append_one _ _ _ hinv.remoteNodup
    intro r hr hid
    exact absurd hid
      (Nat.ne_of_lt (listAllEvents_id_lt userId now s hinv r hr))
  · intro p hp
    rcases List.mem_append.mp hp with h1 | h2
    · exact Nat.lt_succ_of_lt (hinv.remoteLt p h1)
    · rw [List.mem_singleton] at h2
      subst h2
      exact Nat.lt_succ_self _
  · intro m2 hm2
    rcases List.mem_append.mp hm2 with h1 | h2
    · exact Nat.lt_succ_of_lt (hinv.mapGidLt m2 h1)
    · rw [List.mem_singleton] at h2
      subst h2
      exact Nat.lt_succ_self _
  · intro m2 hm2
    rcases List.mem_append.mp hm2 with h1 | h2
    · exact hinv.mapKodaLt m2 h1
    · rw [List.mem_singleton] at h2
      subst h2
      exact he_lt
  · apply nodup_key_append_one s.mappings _ _ hinv.gidKeysNodup
    intro m2 hm2 hkey
    have h2 : m2.googleEventId = s.nextRemoteId := congrArg Prod.snd hkey
    exact absurd h2 (Nat.ne_of_lt (hinv.mapGidLt m2 hm2))
  · apply nodup_key_append_one s.mappings _ _ hinv.kodaKeysNodup
    intro m2 hm2 hkey
    have h1 : m2.userId = userId := congrArg Prod.fst hkey
    have h2 : m2.kodaEventId = e.id := congrArg Prod.snd hkey
    have := List.find?_eq_none.mp hm m2 hm2
    apply this
    simp [h1, h2]
  · exact hinv.eventsNodup
  · exact hinv.eventLt
  · exact hinv.updatedLe

/-- The push update row refresh preserves both natural keys. -/
theorem pushUpdateMap_keys (userId : String) (eid etag now : Nat) (m2 : Mapping) :
    (pushUpdateMap userId eid etag now m2).userId = m2.userId ∧
    (pushUpdateMap userId eid etag now m2).kodaEventId = m2.kodaEventId ∧
    (pushUpdateMap userId eid etag now m2).googleEventId = m2.googleEventId := by
  unfold pushUpdateMap
  split <;> exact ⟨rfl, rfl, rfl⟩

/-- The push update provider refresh preserves the owning user. -/
theorem pushUpdateRemote_fst (userId : String) (gid etag now : Nat)
    (e : LocalEvent) (p : String × RemoteEvent) :
    (pushUpdateRemote userId gid etag now e p).1 = p.1 := by
  unfold pushUpdateRemote
  split
  · rfl
  · rfl

/-- The push update provider refresh preserves the remote id. -/
theorem pushUpdateRemote_id (userId : String) (gid etag now : Nat)
    (e : LocalEvent) (p : String × RemoteEvent) :
    (pushUpdateRemote userId gid etag now e p).2.id = p.2.id := by
  unfold pushUpdateRemote
  by_cases h : (p.1 == userId && p.2.id == gid) = true
  · rw [if_pos h]
    have h2 : p.2.id = gid := eq_of_beq (band_true_right h)
    rw [h2]
    rfl
  · rw [if_neg h]

/-- Push update rewrites the user's remote listing pointwise at the mapped
remote id. -/
theorem listAllEvents_pushUpdate (userId : String) (now : Nat) (e : LocalEvent)
    (m : Mapping) (s : SyncState) :
    listAllEvents (pushUpdate userId now e m s) userId =
      (listAllEvents s userId).map
        (fun r2 => if r2.id == m.googleEventId then
            localToRemote m.googleEventId s.nextRemoteId now e
          else r2) := by
  unfold listAllEvents pushUpdate
  rw [List.filter_map,
    show ((fun p : String × RemoteEvent => p.1 == userId) ∘
        pushUpdateRemote userId m.googleEventId s.nextRemoteId now e) =
      (fun p : String × RemoteEvent => p.1 == userId) from
      funext fun p => by simp [pushUpdateRemote_fst],
    List.map_map, List.map_map]
  apply List.map_congr_left
  intro p hp
  have hq : (p.1 == userId) = true := by
    have := (List.mem_filter.mp hp).2
    exact this
  show (pushUpdateRemote userId m.googleEventId s.nextRemoteId now e p).2 =
    (if p.2.id == m.googleEventId then
        localToRemote m.googleEventId s.nextRemoteId now e
      else p.2)
  unfold pushUpdateRemote
  cases hid : (p.2.id == m.googleEventId) with
  | true => simp [hq]
  | false => simp [hq]

/-- The remote id lookup of a mapping found by local id. -/
theorem findMapping_eq_of_koda (userId : String) (now : Nat) (s : SyncState)
    (hinv : SyncInv userId now s) (kid : Nat) (m : Mapping)
    (hm : findMappingByKoda s userId kid = some m) :
    findMapping s userId m.googleEventId = some m := by
  have hm' : s.mappings.find?
      (fun m2 => m2.userId == userId && m2.kodaEventId == kid) = some m := hm
  have hmm := List.mem_of_find?_eq_some hm'
  have hpm : (m.userId == userId && m.kodaEventId == kid) = true := by
    have h0 := List.find?_some hm'
    exact h0
  have hu : m.userId = userId := eq_of_beq (band_true_left hpm)
  apply find?_eq_some_of_nodup_key s.mappings _
    (fun m2 => (m2.userId, m2.googleEventId)) m hmm
  · simp [hu]
  · intro x hx
    simp only [Bool.and_eq_true, beq_iff_eq] at hx
    simp [hx.1, hx.2, hu]
  · exact hinv.gidKeysNodup

/-- Push update rewrites the token and push instant of the mapping row,
seen through the remote id lookup. -/
theorem findMapping_pushUpdate_self (userId : String) (now : Nat)
    (e : LocalEvent) (m : Mapping) (s : SyncState)
    (hinv : SyncInv userId now s)
    (hm : findMappingByKoda s userId e.id = some m) :
    findMapping (pushUpdate userId now e m s) userId m.googleEventId =
      some { m with googleEtag := s.nextRemoteId, lastPushedAt := some now } := by
  have hg : s.mappings.find?
      (fun m2 => m2.userId == userId && m2.googleEventId == m.googleEventId) =
        some m := findMapping_eq_of_koda userId now s hinv e.id m hm
  have hpm : (m.userId == userId && m.kodaEventId == e.id) = true := by
    have h0 := List.find?_some (show s.mappings.find?
      (fun m2 => m2.userId == userId && m2.kodaEventId == e.id) = some m from hm)
    exact h0
  show (s.mappings.map (pushUpdateMap userId e.id s.nextRemoteId now)).find?
    (fun m2 => m2.userId == userId && m2.googleEventId == m.googleEventId) = _
  rw [find?_map_key _ _ _ (fun x => by
    have hk := pushUpdateMap_keys userId e.id s.nextRemoteId now x
    simp [hk.1, hk.2.2]), hg]
  simp [pushUpdateMap, hpm]

/-- Push update leaves other remote id lookups unchanged. -/
theorem findMapping_pushUpdate_other (userId : String) (now : Nat)
    (e : LocalEvent) (m : Mapping) (s : SyncState)
    (hinv : SyncInv userId now s)
    (hm : findMappingByKoda s userId e.id = some m)
    (gid : Nat) (h : gid ≠ m.googleEventId) :
    findMapping (pushUpdate userId now e m s) userId gid =
      findMapping s userId gid := by
  have hm' : s.mappings.find?
      (fun m2 => m2.userId == userId && m2.kodaEventId == e.id) = some m := hm
  have hmm := List.mem_of_find?_eq_some hm'
  have hpm : (m.userId == userId && m.kodaEventId == e.id) = true := by
    have h0 := List.find?_some hm'
    exact h0
  have hu : m.userId = userId := eq_of_beq (band_true_left hpm)
  have hk : m.kodaEventId = e.id := eq_of_beq (band_true_right hpm)
  apply find?_map_key_id_mem
  · intro x
    have hx := pushUpdateMap_keys userId e.id s.nextRemoteId now x
    simp [hx.1, hx.2.2]
  · intro x hx hpx
    simp only [Bool.and_eq_true, beq_iff_eq] at hpx
    unfold pushUpdateMap
    rw [if_neg]
    intro hcond
    simp only [Bool.and_eq_true, beq_iff_eq] at hcond
    have hxm : x = m := by
      apply List.inj_on_of_nodup_map hinv.kodaKeysNodup hx hmm
      rw [hcond.1, hcond.2, hu, hk]
    apply h
    rw [← hpx.2, hxm]

/-- Push update rewrites the token and push instant of the mapping row,
seen through the local id lookup. -/
theorem findMappingByKoda_pushUpdate_self (userId : String) (now : Nat)
    (e : LocalEvent) (m : Mapping) (s : SyncState)
    (hm : findMappingByKoda s userId e.id = some m) :
    findMappingByKoda (pushUpdate userId now e m s) userId e.id =
      some { m with googleEtag := s.nextRemoteId, lastPushedAt := some now } := by
  have hm' : s.mappings.find?
      (fun m2 => m2.userId == userId && m2.kodaEventId == e.id) = some m := hm
  have hpm : (m.userId == userId && m.kodaEventId == e.id) = true := by
    have h0 := List.find?_some hm'
    exact h0
  show (s.mappings.map (pushUpdateMap userId e.id s.nextRemoteId now)).find?
    (fun m2 => m2.userId == userId && m2.kodaEventId == e.id) = _
  rw [find?_map_key _ _ _ (fun x => by
    have hk := pushUpdateMap_keys userId e.id s.nextRemoteId now x
    simp [hk.1, hk.2.1]), hm']
  simp [pushUpdateMap, hpm]

/-- Push update leaves other local id lookups unchanged. -/
theorem findMappingByKoda_pushUpdate_other (userId : String) (now : Nat)
    (e : LocalEvent) (m : Mapping) (s : SyncState) (kid : Nat)
    (h : kid ≠ e.id) :
    findMappingByKoda (pushUpdate userId now e m s) userId kid =
      findMappingByKoda s userId kid := by
  apply find?_map_key_id
  · intro x
    have hk := pushUpdateMap_keys userId e.id s.nextRemoteId now x
    simp [hk.1, hk.2.1]
  · intro x hpx
    simp only [Bool.and_eq_true, beq_iff_eq] at hpx
    unfold pushUpdateMap
    rw [if_neg]
    simp [hpx.2, h]

/-- Push update preserves state well-formedness. -/
theorem inv_pushUpdate (userId : String) (now : Nat) (e : LocalEvent)
    (m : Mapping) (s : SyncState) (hinv : SyncInv userId now s) :
    SyncInv userId now (pushUpdate userId now e m s) := by
  constructor
  · rw [listAllEvents_pushUpdate]
    apply nodup_key_map _ _ _ hinv.remoteNodup
    intro r2
    by_cases hid : (r2.id == m.googleEventId) = true
    · rw [if_pos hid]
      exact (eq_of_beq hid).symm
    · rw [if_neg hid]
  · intro p hp
    obtain ⟨p0, hp0, rfl⟩ := List.mem_map.mp hp
    rw [pushUpdateRemote_id]
    exact Nat.lt_succ_of_lt (hinv.remoteLt p0 hp0)
  · intro m2 hm2
    obtain ⟨m0, hm0, rfl⟩ := List.mem_map.mp hm2
    rw [(pushUpdateMap_keys userId e.id s.nextRemoteId now m0).2.2]
    exact Nat.lt_succ_of_lt (hinv.mapGidLt m0 hm0)
  · intro m2 hm2
    obtain ⟨m0, hm0, rfl⟩ := List.mem_map.mp hm2
    rw [(pushUpdateMap_keys userId e.id s.nextRemoteId now m0).2.1]
    exact hinv.mapKodaLt m0 hm0
  · apply nodup_key_map s.mappings _ _ hinv.gidKeysNodup
    intro m0
    have hk := pushUpdateMap_keys userId e.id s.nextRemoteId now m0
    simp [hk.1, hk.2.2]
  · apply nodup_key_map s.mappings _ _ hinv.kodaKeysNodup
    intro m0
    have hk := pushUpdateMap_keys userId e.id s.nextRemoteId now m0
    simp [hk.1, hk.2.1]
  · exact hinv.eventsNodup
  · exact hinv.eventLt
  · exact hinv.updatedLe

/-- Push branch equation: unmapped candidate. -/
theorem pushOne_eq_insert (userId : String) (now : Nat) (s : SyncState)
    (c : PushCounts) (e : LocalEvent)
    (hm : findMappingByKoda s userId e.id = none) :
    pushOne userId now (s, c) e =
      (pushInsert userId now e s, { c with pushed := c.pushed + 1 }) := by
  simp [pushOne, hm]

/-- Push branch equation: mapped, unchanged candidate. -/
theorem pushOne_eq_skip (userId : String) (now : Nat) (s : SyncState)
    (c : PushCounts) (e : LocalEvent) (m : Mapping) (t : Nat)
    (hm : findMappingByKoda s userId e.id = some m)
    (hlp : m.lastPushedAt = some t) (hle : e.updatedAt ≤ t) :
    pushOne userId now (s, c) e = (s, c) := by
  simp [pushOne, hm, hlp, hle]

/-- Push branch equation: mapped, changed candidate. -/
theorem pushOne_eq_update (userId : String) (now : Nat) (s : SyncState)
    (c : PushCounts) (e : LocalEvent) (m : Mapping)
    (hm : findMappingByKoda s userId e.id = some m)
    (hguard : (match m.lastPushedAt with
      | some t => decide (e.updatedAt ≤ t)
      | none => false) = false) :
    pushOne userId now (s, c) e =
      (pushUpdate userId now e m s, { c with updated := c.updated + 1 }) := by
  simp [pushOne, hm, hguard]

/-- Push stability depends only on the mapping lookup at the local id. -/
theorem pushStable_transfer (userId : String) (s s2 : SyncState)
    (e : LocalEvent)
    (h : findMappingByKoda s2 userId e.id = findMappingByKoda s userId e.id)
    (hs : PushStable userId s e) : PushStable userId s2 e := by
  unfold PushStable at hs ⊢
  rw [h]
  exact hs

/-- One push processing step preserves the local events, the connections,
the local counter and well-formedness, leaves every other local id
lookup unchanged, leaves the processed candidate push-stable, and
propagates pull stability of the whole remote listing. -/
theorem pushOne_step (userId : String) (now : Nat) (s : SyncState)
    (c : PushCounts) (e : LocalEvent)
    (hinv : SyncInv userId now s)
    (he_lt : e.id < s.nextLocalId)
    (he_upd : e.updatedAt ≤ now) :
    (pushOne userId now (s, c) e).1.events = s.events
    ∧ (pushOne userId now (s, c) e).1.connections = s.connections
    ∧ (pushOne userId now (s, c) e).1.nextLocalId = s.nextLocalId
    ∧ SyncInv userId now (pushOne userId now (s, c) e).1
    ∧ PushStable userId (pushOne userId now (s, c) e).1 e
    ∧ (∀ kid, kid ≠ e.id →
        findMappingByKoda (pushOne userId now (s, c) e).1 userId kid =
          findMappingByKoda s userId kid)
    ∧ ((∀ r ∈ listAllEvents s userId, PullStable userId s r) →
        ∀ r2 ∈ listAllEvents (pushOne userId now (s, c) e).1 userId,
          PullStable userId (pushOne userId now (s, c) e).1 r2) := by
  cases hm : findMappingByKoda s userId e.id with
  | none =>
      rw [pushOne_eq_insert userId now s c e hm]
      refine ⟨rfl, rfl, rfl, inv_pushInsert userId now e s hinv he_lt hm,
        ⟨_, now, findMappingByKoda_pushInsert_self userId now e s hm, rfl, he_upd⟩,
        fun kid hk => findMappingByKoda_pushInsert_other userId now e s kid hk,
        ?_⟩
      intro hall r2 hr2
      rw [listAllEvents_pushInsert] at hr2
      rcases List.mem_append.mp hr2 with hold | hnew
      · exact pullStable_transfer userId s _ r2
          (findMapping_pushInsert_other userId now e s r2.id
            (Nat.ne_of_lt (listAllEvents_id_lt userId now s hinv r2 hold)))
          (hall r2 hold)
      · rw [List.mem_singleton] at hnew
        subst hnew
        exact Or.inr (Or.inr ⟨rfl, _,
          findMapping_pushInsert_self userId now e s hinv.mapGidLt, rfl⟩)
  | some m =>
      cases hguard : (match m.lastPushedAt with
        | some t => decide (e.updatedAt ≤ t)
        | none => false) with
      | true =>
          cases hlp : m.lastPushedAt with
          | none => rw [hlp] at hguard; cases hguard
          | some t =>
              rw [hlp] at hguard
              have hle : e.updatedAt ≤ t := of_decide_eq_true hguard
              rw [pushOne_eq_skip userId now s c e m t hm hlp hle]
              exact ⟨rfl, rfl, rfl, hinv, ⟨m, t, hm, hlp, hle⟩,
                fun kid _ => rfl, fun hall => hall⟩
      | false =>
          rw [pushOne_eq_update userId now s c e m hm hguard]
          refine ⟨rfl, rfl, rfl, inv_pushUpdate userId now e m s hinv,
            ⟨_, now, findMappingByKoda_pushUpdate_self userId now e m s hm,
              rfl, he_upd⟩,
            fun kid hk =>
              findMappingByKoda_pushUpdate_other userId now e m s kid hk,
            ?_⟩
          intro hall r2 hr2
          rw [listAllEvents_pushUpdate] at hr2
          obtain ⟨r0, hr0, rfl⟩ := List.mem_map.mp hr2
          by_cases hid : r0.id = m.googleEventId
          · rw [show (if r0.id == m.googleEventId then
                localToRemote m.googleEventId s.nextRemoteId now e
              else r0) = localToRemote m.googleEventId s.nextRemoteId now e
              from if_pos (by rw [hid]; exact beq_self_eq_true _)]
            exact Or.inr (Or.inr ⟨rfl, _,
              findMapping_pushUpdate_self userId now e m s hinv hm, rfl⟩)
          · rw [show (if r0.id == m.googleEventId then
                localToRemote m.googleEventId s.nextRemoteId now e
              else r0) = r0 from if_neg (by simp [hid])]
            exact pullStable_transfer userId s _ r0
              (findMapping_pushUpdate_other userId now e m s hinv hm r0.id hid)
              (hall r0 hr0)

/-- The push fold over duplicate-free candidates drawn from the event
store preserves the local events, the connections, the local counter and
well-formedness, leaves lookups of unlisted local ids unchanged, leaves
every candidate push-stable, and propagates pull stability of the whole
remote listing. -/
theorem push_fold (userId : String) (now : Nat) (K : List LocalEvent) :
    ∀ (s : SyncState) (c : PushCounts),
      SyncInv userId now s →
      (K.map LocalEvent.id).Nodup →
      (∀ e ∈ K, e.id < s.nextLocalId) →
      (∀ e ∈ K, e.updatedAt ≤ now) →
      (K.foldl (pushOne userId now) (s, c)).1.events = s.events
      ∧ (K.foldl (pushOne userId now) (s, c)).1.connections = s.connections
      ∧ (K.foldl (pushOne userId now) (s, c)).1.nextLocalId = s.nextLocalId
      ∧ SyncInv userId now (K.foldl (pushOne userId now) (s, c)).1
      ∧ (∀ e ∈ K, PushStable userId (K.foldl (pushOne userId now) (s, c)).1 e)
      ∧ (∀ kid, kid ∉ K.map LocalEvent.id →
          findMappingByKoda (K.foldl (pushOne userId now) (s, c)).1 userId kid =
            findMappingByKoda s userId kid)
      ∧ ((∀ r ∈ listAllEvents s userId, PullStable userId s r) →
          ∀ r2 ∈ listAllEvents (K.foldl (pushOne userId now) (s, c)).1 userId,
            PullStable userId (K.foldl (pushOne userId now) (s, c)).1 r2) := by
  induction K with
  | nil =>
      intro s c hinv _ _ _
      exact ⟨rfl, rfl, rfl, hinv, by simp, fun kid _ => rfl, fun hall => hall⟩
  | cons e t ih =>
      intro s c hinv hnd hlt hupd
      obtain ⟨hev, hconn, hnl, hinv1, hstab1, hframe1, hpull1⟩ :=
        pushOne_step userId now s c e hinv (hlt e (List.mem_cons_self e t))
          (hupd e (List.mem_cons_self e t))
      have hnd' : (e.id :: t.map LocalEvent.id).Nodup := hnd
      have hhead : e.id ∉ t.map LocalEvent.id := (List.nodup_cons.mp hnd').1
      have hndt : (t.map LocalEvent.id).Nodup := (List.nodup_cons.mp hnd').2
      have hltt : ∀ e2 ∈ t, e2.id < (pushOne userId now (s, c) e).1.nextLocalId := by
        intro e2 he2
        rw [hnl]
        exact hlt e2 (List.mem_cons_of_mem e he2)
      have hupdt : ∀ e2 ∈ t, e2.updatedAt ≤ now :=
        fun e2 he2 => hupd e2 (List.mem_cons_of_mem e he2)
      obtain ⟨ihev, ihconn, ihnl, ihinv, ihstab, ihframe, ihpull⟩ :=
        ih (pushOne userId now (s, c) e).1 (pushOne userId now (s, c) e).2
          hinv1 hndt hltt hupdt
      rw [List.foldl_cons]
      refine ⟨ihev.trans hev, ihconn.trans hconn, ihnl.trans hnl, ihinv, ?_, ?_, ?_⟩
      · intro e2 he2
        rcases List.mem_cons.mp he2 with rfl | he2t
        · exact pushStable_transfer userId _ _ e2 (ihframe e2.id hhead) hstab1
        · exact ihstab e2 he2t
      · intro kid hk
        have hk' : kid ∉ e.id :: t.map LocalEvent.id := hk
        have h1 : kid ≠ e.id := fun h => hk' (h ▸ List.mem_cons_self _ _)
        have h2 : kid ∉ t.map LocalEvent.id :=
          fun h => hk' (List.mem_cons_of_mem _ h)
        exact (ihframe kid h2).trans (hframe1 kid h1)
      · intro hall
        exact ihpull (hpull1 hall)

/-! ## Ranking pipeline: data model and operations -/

/-- Modelled from the spec: the two suggestion sources. -/
inductive SuggestionSource
  | TICKETMASTER
  | OSM
deriving DecidableEq

/-- Modelled from the spec: open-state of a suggestion at the requested
slot. -/
inductive OpenState
  | OPEN
  | CLOSED
  | UNKNOWN
deriving DecidableEq

/-- Modelled from the spec: derived confidence of a suggestion. -/
inductive Confidence
  | HIGH
  | LOW
deriving DecidableEq

/-- Modelled from the spec: the ephemeral suggestion DTO produced by the
fetchers and ranked by the pipeline. -/
structure SuggestionDTO where
  source : SuggestionSource
  title : String
  externalId : Option String
  venueName : Option String
  isOpenAtTime : OpenState
  confidence : Confidence
  slotStartAt : String
  slotEndAt : String
deriving DecidableEq

/-- Modelled from the spec: two suggestions denote the same entity when
they share a non-empty externalId, or otherwise share the same
(venueName, title) pair. -/
def sameSuggestion (a b : SuggestionDTO) : Bool :=
  (match a.externalId, b.externalId with
   | some x, some y => !(x == "") && x == y
   | _, _ => false)
  ||
  (match a.venueName, b.venueName with
   | some v, some w => v == w && a.title == b.title
   | _, _ => false)

/-- Modelled from the spec: one deduplication step keeps an incoming
suggestion unless an already-kept suggestion denotes the same entity. -/
def dedupeStep (kept : List SuggestionDTO) (x : SuggestionDTO) :
    List SuggestionDTO :=
  if kept.any (fun y => sameSuggestion y x) then kept else kept ++ [x]

/-- Modelled from the spec: deduplication keeps the first-seen suggestion
of each entity and drops any later suggestion denoting an entity already
kept. -/
def dedupeSuggestions (l : List SuggestionDTO) : List SuggestionDTO :=
  l.foldl dedupeStep []

/-- Modelled from the spec: downstream of the open-state filter, the
UNKNOWN open-state maps to confidence LOW. -/
def deriveConfidence (x : SuggestionDTO) : SuggestionDTO :=
  if x.isOpenAtTime = OpenState.UNKNOWN then { x with confidence := Confidence.LOW }
  else x

/-- Modelled from the spec: `fetchAndRankSuggestions` for the ranking
pipeline, which is missing from the sources (only its tests are
present).  The two fetcher results are merged, suggestions CLOSED at the
requested slot are dropped, confidence is derived, and duplicates are
removed keeping the first-seen entry; input order is preserved. -/
def fetchAndRankSuggestions (tm osm : List SuggestionDTO) : List SuggestionDTO :=
  dedupeSuggestions
    (((tm ++ osm).filter
        (fun x => !(decide (x.isOpenAtTime = OpenState.CLOSED)))).map
      deriveConfidence)

/-! ## Ranking pipeline: fold lemmas for deduplication -/

/-- The deduplication fold only appends: its result is the initial kept
list followed by a sublist of the input. -/
theorem dedupe_extend (l : List SuggestionDTO) :
    ∀ kept : List SuggestionDTO,
      ∃ d, l.foldl dedupeStep kept = kept ++ d ∧ List.Sublist d l := by
  induction l with
  | nil => intro kept; exact ⟨[], by simp, List.nil_sublist _⟩
  | cons x t ih =>
      intro kept
      cases hx : kept.any (fun y => sameSuggestion y x) with
      | true =>
          obtain ⟨d, hd, hs⟩ := ih kept
          refine ⟨d, ?_, List.Sublist.cons x hs⟩
          rw [List.foldl_cons, show dedupeStep kept x = kept from by
            simp [dedupeStep, hx], hd]
      | false =>
          obtain ⟨d, hd, hs⟩ := ih (kept ++ [x])
          refine ⟨x :: d, ?_, List.Sublist.cons₂ x hs⟩
          rw [List.foldl_cons, show dedupeStep kept x = kept ++ [x] from by
            simp [dedupeStep, hx], hd]
          simp

/-- The deduplication fold preserves pairwise non-equivalence of the kept
list: no two entries of its result denote the same entity. -/
theorem dedupe_pairwise (l : List SuggestionDTO) :
    ∀ kept : List SuggestionDTO,
      kept.Pairwise (fun a b => sameSuggestion a b = false) →
      (l.foldl dedupeStep kept).Pairwise (fun a b => sameSuggestion a b = false) := by
  induction l with
  | nil => intro kept h; simpa using h
  | cons x t ih =>
      intro kept h
      cases hx : kept.any (fun y => sameSuggestion y x) with
      | true =>
          rw [List.foldl_cons, show dedupeStep kept x = kept from by
            simp [dedupeStep, hx]]
          exact ih kept h
      | false =>
          rw [List.foldl_cons, show dedupeStep kept x = kept ++ [x] from by
            simp [dedupeStep, hx]]
          apply ih
          rw [List.pairwise_append]
          refine ⟨h, List.pairwise_singleton _ _, ?_⟩
          intro a ha b hb
          rw [List.mem_singleton] at hb
          subst hb
          have hall := List.any_eq_false.mp hx
          exact Bool.eq_false_iff.mpr (hall a ha)

/-- Every input element has a representative in the deduplication fold
result: itself, or an earlier-kept suggestion denoting the same entity. -/
theorem dedupe_rep (l : List SuggestionDTO) :
    ∀ kept : List SuggestionDTO, ∀ x ∈ l,
      ∃ y ∈ l.foldl dedupeStep kept, y = x ∨ sameSuggestion y x = true := by
  induction l with
  | nil => intro kept x hx; cases hx
  | cons x0 t ih =>
      intro kept x hx
      rw [List.foldl_cons]
      rcases List.mem_cons.mp hx with rfl | hxt
      · cases hx0 : kept.any (fun y => sameSuggestion y x) with
        | true =>
            rw [show dedupeStep kept x = kept from by simp [dedupeStep, hx0]]
            obtain ⟨y, hy, hyx⟩ := List.any_eq_true.mp hx0
            obtain ⟨d, hd, _⟩ := dedupe_extend t kept
            exact ⟨y, by rw [hd]; exact List.mem_append_left _ hy, Or.inr hyx⟩
        | false =>
            rw [show dedupeStep kept x = kept ++ [x] from by simp [dedupeStep, hx0]]
            obtain ⟨d, hd, _⟩ := dedupe_extend t (kept ++ [x])
            refine ⟨x, ?_, Or.inl rfl⟩
            rw [hd]
            exact List.mem_append_left _
              (List.mem_append_right _ (List.mem_singleton_self x))
      · cases hx0 : kept.any (fun y => sameSuggestion y x0) with
        | true =>
            rw [show dedupeStep kept x0 = kept from by simp [dedupeStep, hx0]]
            exact ih kept x hxt
        | false =>
            rw [show dedupeStep kept x0 = kept ++ [x0] from by simp [dedupeStep, hx0]]
            exact ih _ x hxt

/-- An input whose elements are pairwise non-equivalent, and carry no
entity kept so far, passes through the deduplication fold unchanged. -/
theorem dedupe_fixed (l : List SuggestionDTO) :
    ∀ kept : List SuggestionDTO,
      (∀ y ∈ kept, ∀ x ∈ l, sameSuggestion y x = false) →
      l.Pairwise (fun a b => sameSuggestion a b = false) →
      l.foldl dedupeStep kept = kept ++ l := by
  induction l with
  | nil => intro kept _ _; simp
  | cons x t ih =>
      intro kept hk hp
      have hany : kept.any (fun y => sameSuggestion y x) = false := by
        rw [List.any_eq_false]
        intro y hy
        rw [hk y hy x (List.mem_cons_self x t)]
        simp
      have hk2 : ∀ y ∈ kept ++ [x], ∀ z ∈ t, sameSuggestion y z = false := by
        intro y hy z hz
        rcases List.mem_append.mp hy with hy1 | hy2
        · exact hk y hy1 z (List.mem_cons_of_mem x hz)
        · rw [List.mem_singleton] at hy2
          subst hy2
          exact List.rel_of_pairwise_cons hp hz
      rw [List.foldl_cons, show dedupeStep kept x = kept ++ [x] from by
        simp [dedupeStep, hany], ih (kept ++ [x]) hk2 (List.Pairwise.of_cons hp)]
      simp

/-- Derived confidence preserves the open-state. -/
theorem deriveConfidence_isOpen (x : SuggestionDTO) :
    (deriveConfidence x).isOpenAtTime = x.isOpenAtTime := by
  unfold deriveConfidence
  split <;> rfl

/-- Derived confidence of an UNKNOWN open-state is LOW. -/
theorem deriveConfidence_unknown (x : SuggestionDTO)
    (h : x.isOpenAtTime = OpenState.UNKNOWN) :
    (deriveConfidence x).confidence = Confidence.LOW := by
  simp [deriveConfidence, h]

/-! ## Calendar redaction (embedded from the source) -/

/-- Event visibility enum of the local Event model. -/
inductive EventVisibility
  | PRIVATE
  | FRIENDS
  | PUBLIC
deriving DecidableEq

/-- Detail level of a calendar permission. -/
inductive DetailLevel
  | BUSY_ONLY
  | DETAILS
deriving DecidableEq

/-- Calendar permission result, from `CalendarPermission`. -/
structure CalendarPermission where
  allowed : Bool
  detailLevel : Option DetailLevel
deriving DecidableEq

/-- Input shape of `filterEventsForViewer`: the event fields it reads. -/
structure ViewerEvent where
  id : String
  title : String
  startAt : Nat
  endAt : Nat
  locationName : Option String
  visibility : EventVisibility
deriving DecidableEq

/-- Redacted event for a calendar view, from `RedactedEvent` (an omitted
`locationName` is `none`). -/
structure RedactedEvent where
  id : String
  startAt : Nat
  endAt : Nat
  title : String
  locationName : Option String
  redacted : Bool
deriving DecidableEq

/-- The per-event body of `filterEventsForViewer`: a PRIVATE event, or any
event under a BUSY_ONLY detail level, is redacted to the title Busy with
the location omitted. -/
def redactEvent (permission : CalendarPermission) (event : ViewerEvent) :
    RedactedEvent :=
  let isPrivate : Bool := decide (event.visibility = EventVisibility.PRIVATE)
  let isBusyOnly : Bool := decide (permission.detailLevel = some DetailLevel.BUSY_ONLY)
  let redacted : Bool := isPrivate || isBusyOnly
  { id := event.id
    startAt := event.startAt
    endAt := event.endAt
    title := if redacted then "Busy" else event.title
    locationName := if redacted then none else event.locationName
    redacted := redacted }

/-- Embedded from the source: `filterEventsForViewer` returns the empty
list when the permission is not allowed, and otherwise maps every event
through the redaction body. -/
def filterEventsForViewer (events : List ViewerEvent)
    (permission : CalendarPermission) : List RedactedEvent :=
  if !permission.allowed then []
  else events.map (redactEvent permission)

/-! ## Claim theorems: structural invariants and error handling -/

/-- C4: for every local event state, no event with source GOOGLE is ever
selected as a push candidate; the candidate query itself filters to
source KODA and syncToGoogle true. -/
theorem pushCandidates_source_KODA (userId : String) (s : SyncState) :
    (∀ e ∈ pushCandidates userId s,
        e.ownerId = userId ∧ e.source = EventSource.KODA ∧ e.syncToGoogle = true)
    ∧ ∀ e : LocalEvent, e.source = EventSource.GOOGLE →
        e ∉ pushCandidates userId s := by
  constructor
  · intro e he
    simp only [pushCandidates, List.mem_filter, Bool.and_eq_true, beq_iff_eq,
      decide_eq_true_eq] at he
    exact ⟨he.2.1.1, he.2.1.2, he.2.2⟩
  · intro e hsrc hmem
    simp only [pushCandidates, List.mem_filter, Bool.and_eq_true, beq_iff_eq,
      decide_eq_true_eq] at hmem
    rw [hsrc] at hmem
    exact absurd hmem.2.1.2 (by intro h; cases h)

/-- Witness for C4 at a concrete state: a GOOGLE-sourced event is not a
push candidate. -/
theorem pushCandidates_source_KODA_witness :
    ({ id := 7, ownerId := "u", title := "t", description := none,
       locationName := none, startAt := 0, endAt := 1, timezone := "UTC",
       source := EventSource.GOOGLE, externalId := some 3,
       syncToGoogle := true, updatedAt := 0 } : LocalEvent) ∉
      pushCandidates "u"
        { connections := [], events := [], mappings := [], remote := [],
          nextLocalId := 0, nextRemoteId := 0 } :=
  (pushCandidates_source_KODA "u"
      { connections := [], events := [], mappings := [], remote := [],
        nextLocalId := 0, nextRemoteId := 0 }).2 _ rfl

/-- A fold whose step fixes the accumulator on every list element fixes
the accumulator. -/
theorem foldl_fixed {α β : Type} (f : β → α → β) (b : β) :
    ∀ L : List α, (∀ x ∈ L, f b x = b) → L.foldl f b = b := by
  intro L
  induction L with
  | nil => intro _; rfl
  | cons x t ih =>
      intro h
      have hx : f b x = b := h x (List.mem_cons_self x t)
      simp only [List.foldl_cons, hx]
      exact ih (fun y hy => h y (List.mem_cons_of_mem x hy))

/-- The pull-side loop-prevention guard: the stored change-token of the
existing mapping equals the remote token. -/
def etagUnchangedB (s : SyncState) (userId : String) (r : RemoteEvent) : Bool :=
  match findMapping s userId r.id with
  | some m => m.googleEtag == r.etag
  | none => false

/-- Processing a confirmed remote event whose mapping stores an equal
change-token is a no-op on both state and counts. -/
theorem pullOne_noop_of_etag (userId : String) (now : Nat) (s : SyncState)
    (c : PullCounts) (r : RemoteEvent) (m : Mapping)
    (hst : r.status = GStatus.confirmed)
    (hmap : findMapping s userId r.id = some m)
    (hetag : m.googleEtag = r.etag) :
    pullOne userId now (s, c) r = (s, c) := by
  simp [pullOne, hst, hmap, hetag]

/-- The push-side loop-prevention guard: the candidate has a mapping whose
lastPushedAt is at least the candidate updatedAt. -/
def notChangedB (s : SyncState) (userId : String) (e : LocalEvent) : Bool :=
  match findMappingByKoda s userId e.id with
  | some m =>
    match m.lastPushedAt with
    | some t => decide (e.updatedAt ≤ t)
    | none => false
  | none => false

/-- Processing a candidate not changed since its last push is a no-op on
both state and counts. -/
theorem pushOne_noop_of_unchanged (userId : String) (now : Nat) (s : SyncState)
    (c : PushCounts) (e : LocalEvent) (m : Mapping) (t : Nat)
    (hmap : findMappingByKoda s userId e.id = some m)
    (hlp : m.lastPushedAt = some t)
    (hle : e.updatedAt ≤ t) :
    pushOne userId now (s, c) e = (s, c) := by
  simp [pushOne, hmap, hlp, hle]

/-- C2: pull-side loop prevention: a remote event with an existing mapping
storing an equal change-token causes no local create or update and
increments no counter; hence a pull whose listed remote events all carry
unchanged tokens returns zero counts and leaves the state unchanged. -/
theorem syncPull_loop_prevention (userId : String) (now : Nat) (s : SyncState) :
    (∀ (r : RemoteEvent) (m : Mapping) (c : PullCounts),
        r.status = GStatus.confirmed →
        findMapping s userId r.id = some m →
        m.googleEtag = r.etag →
        pullOne userId now (s, c) r = (s, c))
    ∧ ((∀ r ∈ listAllEvents s userId,
          r.status = GStatus.confirmed ∧ etagUnchangedB s userId r = true) →
        syncPull userId now s = (s, { pulled := 0, updated := 0, deleted := 0 })) := by
  constructor
  · intro r m c hst hmap hetag
    exact pullOne_noop_of_etag userId now s c r m hst hmap hetag
  · intro h
    unfold syncPull
    cases hc : lookupConnection s userId with
    | none => rfl
    | some conn =>
        apply foldl_fixed
        intro r hr
        obtain ⟨hst, hun⟩ := h r hr
        unfold etagUnchangedB at hun
        cases hmap : findMapping s userId r.id with
        | none => rw [hmap] at hun; cases hun
        | some m =>
            rw [hmap] at hun
            exact pullOne_noop_of_etag userId now s _ r m hst hmap
              (eq_of_beq (show (m.googleEtag == r.etag) = true from hun))

/-- Witness for C2: a pull over one unchanged remote event is a no-op at a
concrete state. -/
theorem syncPull_loop_prevention_witness :
    syncPull "u" 9
        { connections :=
            [("u", { pushEnabled := false, syncWindowPastDays := 30,
                     syncWindowFutureDays := 90, lastSyncedAt := none })]
          events := []
          mappings :=
            [{ userId := "u", kodaEventId := 4, googleEventId := 1,
               googleEtag := 3, lastPushedAt := none }]
          remote :=
            [("u", { id := 1, summary := some "Standup", description := none,
                     location := none,
                     gstart := { dateTime := some 10, date := none, timeZone := none },
                     gend := { dateTime := some 20, date := none, timeZone := none },
                     etag := 3, updated := none, status := GStatus.confirmed })]
          nextLocalId := 5, nextRemoteId := 2 } =
      ({ connections :=
            [("u", { pushEnabled := false, syncWindowPastDays := 30,
                     syncWindowFutureDays := 90, lastSyncedAt := none })]
         events := []
         mappings :=
            [{ userId := "u", kodaEventId := 4, googleEventId := 1,
               googleEtag := 3, lastPushedAt := none }]
         remote :=
            [("u", { id := 1, summary := some "Standup", description := none,
                     location := none,
                     gstart := { dateTime := some 10, date := none, timeZone := none },
                     gend := { dateTime := some 20, date := none, timeZone := none },
                     etag := 3, updated := none, status := GStatus.confirmed })]
         nextLocalId := 5, nextRemoteId := 2 },
       { pulled := 0, updated := 0, deleted := 0 }) :=
  (syncPull_loop_prevention "u" 9 _).2 (by decide)

/-- C3: push-side loop prevention: a candidate whose updatedAt is at most
its mapping lastPushedAt causes no provider insert or update call and
increments neither counter; hence a push whose candidates are all
unchanged since their last push returns zero counts and leaves the state
unchanged. -/
theorem syncPush_loop_prevention (userId : String) (now : Nat) (s : SyncState) :
    (∀ (e : LocalEvent) (m : Mapping) (t : Nat) (c : PushCounts),
        findMappingByKoda s userId e.id = some m →
        m.lastPushedAt = some t →
        e.updatedAt ≤ t →
        pushOne userId now (s, c) e = (s, c))
    ∧ ((∀ e ∈ pushCandidates userId s, notChangedB s userId e = true) →
        syncPush userId now s = (s, { pushed := 0, updated := 0 })) := by
  constructor
  · intro e m t c hmap hlp hle
    exact pushOne_noop_of_unchanged userId now s c e m t hmap hlp hle
  · intro h
    unfold syncPush
    cases hc : lookupConnection s userId with
    | none => rfl
    | some conn =>
        cases hpe : conn.pushEnabled with
        | false => simp [hpe]
        | true =>
            simp only [hpe, if_true]
            apply foldl_fixed
            intro e he
            have hun := h e he
            unfold notChangedB at hun
            cases hmap : findMappingByKoda s userId e.id with
            | none => rw [hmap] at hun; cases hun
            | some m =>
                rw [hmap] at hun
                have hun2 : (match m.lastPushedAt with
                    | some t => decide (e.updatedAt ≤ t)
                    | none => false) = true := hun
                cases hlp : m.lastPushedAt with
                | none => rw [hlp] at hun2; cases hun2
                | some t =>
                    rw [hlp] at hun2
                    exact pushOne_noop_of_unchanged userId now s _ e m t hmap hlp
                      (of_decide_eq_true
                        (show decide (e.updatedAt ≤ t) = true from hun2))

/-- Witness for C3: a push over one unchanged candidate is a no-op at a
concrete state. -/
theorem syncPush_loop_prevention_witness :
    syncPush "u" 9
        { connections :=
            [("u", { pushEnabled := true, syncWindowPastDays := 30,
                     syncWindowFutureDays := 90, lastSyncedAt := none })]
          events :=
            [{ id := 4, ownerId := "u", title := "Unchanged", description := none,
               locationName := none, startAt := 10, endAt := 20,
               timezone := "UTC", source := EventSource.KODA,
               externalId := none, syncToGoogle := true, updatedAt := 6 }]
          mappings :=
            [{ userId := "u", kodaEventId := 4, googleEventId := 1,
               googleEtag := 3, lastPushedAt := some 7 }]
          remote := []
          nextLocalId := 5, nextRemoteId := 2 } =
      ({ connections :=
            [("u", { pushEnabled := true, syncWindowPastDays := 30,
                     syncWindowFutureDays := 90, lastSyncedAt := none })]
         events :=
            [{ id := 4, ownerId := "u", title := "Unchanged", description := none,
               locationName := none, startAt := 10, endAt := 20,
               timezone := "UTC", source := EventSource.KODA,
               externalId := none, syncToGoogle := true, updatedAt := 6 }]
         mappings :=
            [{ userId := "u", kodaEventId := 4, googleEventId := 1,
               googleEtag := 3, lastPushedAt := some 7 }]
         remote := []
         nextLocalId := 5, nextRemoteId := 2 },
       { pushed := 0, updated := 0 }) :=
  (syncPush_loop_prevention "u" 9 _).2 (by decide)

/-- C7: a cancelled remote event with an existing mapping makes pull
delete the local event and the mapping row and count one deletion
(result zero pulled, zero updated, one deleted for that single event);
a cancelled remote event without a mapping is ignored with zero counts. -/
theorem syncPull_cancelled (userId : String) (now : Nat) (s : SyncState)
    (r : RemoteEvent)
    (hconn : (lookupConnection s userId).isSome = true)
    (hlist : listAllEvents s userId = [r])
    (hst : r.status = GStatus.cancelled) :
    (∀ m : Mapping, findMapping s userId r.id = some m →
        syncPull userId now s =
          ({ s with
              events := s.events.filter (fun e => !(e.id == m.kodaEventId))
              mappings := s.mappings.filter
                (fun m2 => !(m2.userId == userId && m2.googleEventId == r.id)) },
           { pulled := 0, updated := 0, deleted := 1 }))
    ∧ (findMapping s userId r.id = none →
        syncPull userId now s = (s, { pulled := 0, updated := 0, deleted := 0 })) := by
  obtain ⟨conn, hc⟩ := Option.isSome_iff_exists.mp hconn
  constructor
  · intro m hm
    unfold syncPull
    rw [hc, hlist]
    simp [pullOne, pullDelete, hst, hm]
  · intro hm
    unfold syncPull
    rw [hc, hlist]
    simp [pullOne, hst, hm]

/-- Witness for C7 at a concrete state: one cancelled remote event with a
mapping produces one deletion and removes the local event and the
mapping. -/
theorem syncPull_cancelled_witness :
    syncPull "u" 5
        { connections :=
            [("u", { pushEnabled := false, syncWindowPastDays := 30,
                     syncWindowFutureDays := 90, lastSyncedAt := none })]
          events :=
            [{ id := 100, ownerId := "u", title := "Doomed", description := none,
               locationName := none, startAt := 10, endAt := 20,
               timezone := "UTC", source := EventSource.GOOGLE,
               externalId := some 1, syncToGoogle := false, updatedAt := 2 }]
          mappings :=
            [{ userId := "u", kodaEventId := 100, googleEventId := 1,
               googleEtag := 3, lastPushedAt := none }]
          remote :=
            [("u", { id := 1, summary := none, description := none,
                     location := none,
                     gstart := { dateTime := some 10, date := none, timeZone := none },
                     gend := { dateTime := some 20, date := none, timeZone := none },
                     etag := 4, updated := none, status := GStatus.cancelled })]
          nextLocalId := 101, nextRemoteId := 2 } =
      ({ connections :=
            [("u", { pushEnabled := false, syncWindowPastDays := 30,
                     syncWindowFutureDays := 90, lastSyncedAt := none })]
         events := []
         mappings := []
         remote :=
            [("u", { id := 1, summary := none, description := none,
                     location := none,
                     gstart := { dateTime := some 10, date := none, timeZone := none },
                     gend := { dateTime := some 20, date := none, timeZone := none },
                     etag := 4, updated := none, status := GStatus.cancelled })]
         nextLocalId := 101, nextRemoteId := 2 },
       { pulled := 0, updated := 0, deleted := 1 }) := by
  have h :=
    (syncPull_cancelled "u" 5
        { connections :=
            [("u", { pushEnabled := false, syncWindowPastDays := 30,
                     syncWindowFutureDays := 90, lastSyncedAt := none })]
          events :=
            [{ id := 100, ownerId := "u", title := "Doomed", description := none,
               locationName := none, startAt := 10, endAt := 20,
               timezone := "UTC", source := EventSource.GOOGLE,
               externalId := some 1, syncToGoogle := false, updatedAt := 2 }]
          mappings :=
            [{ userId := "u", kodaEventId := 100, googleEventId := 1,
               googleEtag := 3, lastPushedAt := none }]
          remote :=
            [("u", { id := 1, summary := none, description := none,
                     location := none,
                     gstart := { dateTime := some 10, date := none, timeZone := none },
                     gend := { dateTime := some 20, date := none, timeZone := none },
                     etag := 4, updated := none, status := GStatus.cancelled })]
          nextLocalId := 101, nextRemoteId := 2 }
        { id := 1, summary := none, description := none, location := none,
          gstart := { dateTime := some 10, date := none, timeZone := none },
          gend := { dateTime := some 20, date := none, timeZone := none },
          etag := 4, updated := none, status := GStatus.cancelled }
        (by decide) (by decide) rfl).1
      { userId := "u", kodaEventId := 100, googleEventId := 1,
        googleEtag := 3, lastPushedAt := none } rfl
  rw [h]
  decide

/-- C8: a date-only remote event with no mapping is accepted on pull: a
local event with source GOOGLE and externalId the remote id is created
together with a mapping storing the remote change-token, and pulled is
incremented to one. -/
theorem syncPull_dateOnly (userId : String) (now : Nat) (s : SyncState)
    (r : RemoteEvent)
    (hconn : (lookupConnection s userId).isSome = true)
    (hlist : listAllEvents s userId = [r])
    (hst : r.status = GStatus.confirmed)
    (hmap : findMapping s userId r.id = none)
    (hsdt : r.gstart.dateTime = none) (hsd : (r.gstart.date).isSome = true)
    (hedt : r.gend.dateTime = none) (hed : (r.gend.date).isSome = true) :
    syncPull userId now s =
      ({ s with
          events := s.events ++ [remoteToLocal userId s.nextLocalId now r]
          mappings := s.mappings ++
            [{ userId := userId
               kodaEventId := s.nextLocalId
               googleEventId := r.id
               googleEtag := r.etag
               lastPushedAt := none }]
          nextLocalId := s.nextLocalId + 1 },
       { pulled := 1, updated := 0, deleted := 0 })
    ∧ (remoteToLocal userId s.nextLocalId now r).source = EventSource.GOOGLE
    ∧ (remoteToLocal userId s.nextLocalId now r).externalId = some r.id := by
  obtain ⟨conn, hc⟩ := Option.isSome_iff_exists.mp hconn
  refine ⟨?_, rfl, rfl⟩
  unfold syncPull
  rw [hc, hlist]
  have hv : (r.gstart.valid && r.gend.valid) = true := by
    simp [GTimeField.valid, hsd, hed]
  simp [pullOne, pullCreate, hst, hmap, hv]

/-- Witness for C8 at a concrete state: one date-only remote event with no
mapping yields one pulled event. -/
theorem syncPull_dateOnly_witness :
    (syncPull "u" 5
        { connections :=
            [("u", { pushEnabled := false, syncWindowPastDays := 30,
                     syncWindowFutureDays := 90, lastSyncedAt := none })]
          events := []
          mappings := []
          remote :=
            [("u", { id := 1, summary := some "All Day Event",
                     description := none, location := none,
                     gstart := { dateTime := none, date := some 10, timeZone := none },
                     gend := { dateTime := none, date := some 11, timeZone := none },
                     etag := 4, updated := none, status := GStatus.confirmed })]
          nextLocalId := 0, nextRemoteId := 2 }).2 =
      { pulled := 1, updated := 0, deleted := 0 } := by
  have h :=
    (syncPull_dateOnly "u" 5
        { connections :=
            [("u", { pushEnabled := false, syncWindowPastDays := 30,
                     syncWindowFutureDays := 90, lastSyncedAt := none })]
          events := []
          mappings := []
          remote :=
            [("u", { id := 1, summary := some "All Day Event",
                     description := none, location := none,
                     gstart := { dateTime := none, date := some 10, timeZone := none },
                     gend := { dateTime := none, date := some 11, timeZone := none },
                     etag := 4, updated := none, status := GStatus.confirmed })]
          nextLocalId := 0, nextRemoteId := 2 }
        { id := 1, summary := some "All Day Event", description := none,
          location := none,
          gstart := { dateTime := none, date := some 10, timeZone := none },
          gend := { dateTime := none, date := some 11, timeZone := none },
          etag := 4, updated := none, status := GStatus.confirmed }
        (by decide) (by decide) rfl (by decide) rfl rfl rfl rfl).1
  rw [h]

/-- C5: deduplication in the ranking pipeline: the output is a sublist of
the input in which no two entries share a non-empty externalId or a
(venueName, title) pair; every dropped input has a kept representative
denoting the same entity; an input list whose entries are pairwise
distinct entities passes through unmerged even when titles coincide; and
the first-seen suggestion wins. -/
theorem dedupeSuggestions_spec (L : List SuggestionDTO) :
    List.Sublist (dedupeSuggestions L) L
    ∧ (dedupeSuggestions L).Pairwise (fun a b => sameSuggestion a b = false)
    ∧ (∀ x ∈ L, ∃ y ∈ dedupeSuggestions L, y = x ∨ sameSuggestion y x = true)
    ∧ (L.Pairwise (fun a b => sameSuggestion a b = false) →
        dedupeSuggestions L = L)
    ∧ ∀ (x : SuggestionDTO) (rest : List SuggestionDTO),
        (dedupeSuggestions (x :: rest)).head? = some x := by
  refine ⟨?_, ?_, ?_, ?_, ?_⟩
  · obtain ⟨d, hd, hs⟩ := dedupe_extend L []
    unfold dedupeSuggestions
    rw [hd]
    simpa using hs
  · exact dedupe_pairwise L [] (List.Pairwise.nil)
  · intro x hx
    exact dedupe_rep L [] x hx
  · intro hp
    unfold dedupeSuggestions
    rw [dedupe_fixed L [] (by intro y hy; cases hy) hp]
    simp
  · intro x rest
    unfold dedupeSuggestions
    rw [List.foldl_cons, show dedupeStep [] x = [x] from by simp [dedupeStep]]
    obtain ⟨d, hd, _⟩ := dedupe_extend rest [x]
    rw [hd]
    rfl

/-- Witness for C5: two suggestions with coinciding titles but neither a
shared externalId nor a shared venue and title pair are never merged. -/
theorem dedupeSuggestions_spec_witness :
    dedupeSuggestions
        [{ source := SuggestionSource.OSM, title := "Good Coffee",
           externalId := some "osm-1", venueName := some "Venue A",
           isOpenAtTime := OpenState.OPEN, confidence := Confidence.HIGH,
           slotStartAt := "s", slotEndAt := "e" },
         { source := SuggestionSource.OSM, title := "Good Coffee",
           externalId := some "osm-2", venueName := some "Venue B",
           isOpenAtTime := OpenState.OPEN, confidence := Confidence.HIGH,
           slotStartAt := "s", slotEndAt := "e" }] =
      [{ source := SuggestionSource.OSM, title := "Good Coffee",
         externalId := some "osm-1", venueName := some "Venue A",
         isOpenAtTime := OpenState.OPEN, confidence := Confidence.HIGH,
         slotStartAt := "s", slotEndAt := "e" },
       { source := SuggestionSource.OSM, title := "Good Coffee",
         externalId := some "osm-2", venueName := some "Venue B",
         isOpenAtTime := OpenState.OPEN, confidence := Confidence.HIGH,
         slotStartAt := "s", slotEndAt := "e" }] :=
  (dedupeSuggestions_spec _).2.2.2.1 (by decide)

/-- C6: open-state filtering in the ranking pipeline: no suggestion whose
open-state is CLOSED appears in the ranked output; every output
suggestion with open-state UNKNOWN has confidence LOW; and every input
suggestion with open-state OPEN or UNKNOWN is retained up to
deduplication, that is, its confidence-derived form or a kept suggestion
denoting the same entity appears in the output. -/
theorem fetchAndRankSuggestions_openState (tm osm : List SuggestionDTO) :
    (∀ x ∈ fetchAndRankSuggestions tm osm, x.isOpenAtTime ≠ OpenState.CLOSED)
    ∧ (∀ x ∈ fetchAndRankSuggestions tm osm,
        x.isOpenAtTime = OpenState.UNKNOWN → x.confidence = Confidence.LOW)
    ∧ ∀ x ∈ tm ++ osm, x.isOpenAtTime ≠ OpenState.CLOSED →
        ∃ y ∈ fetchAndRankSuggestions tm osm,
          y = deriveConfidence x ∨ sameSuggestion y (deriveConfidence x) = true := by
  have hmem : ∀ x ∈ fetchAndRankSuggestions tm osm,
      ∃ x0, x0 ∈ tm ++ osm ∧ x0.isOpenAtTime ≠ OpenState.CLOSED ∧
        x = deriveConfidence x0 := by
    intro x hx
    unfold fetchAndRankSuggestions at hx
    obtain ⟨d, hd, hs⟩ := dedupe_extend
      (((tm ++ osm).filter
          (fun z => !(decide (z.isOpenAtTime = OpenState.CLOSED)))).map
        deriveConfidence) []
    unfold dedupeSuggestions at hx
    rw [hd] at hx
    simp only [List.nil_append] at hx
    have hxm := hs.mem hx
    obtain ⟨x0, hx0, hx0e⟩ := List.mem_map.mp hxm
    have hx0f := List.mem_filter.mp hx0
    refine ⟨x0, hx0f.1, ?_, hx0e.symm⟩
    have := hx0f.2
    simpa using this
  refine ⟨?_, ?_, ?_⟩
  · intro x hx
    obtain ⟨x0, _, hnc, hxe⟩ := hmem x hx
    rw [hxe, deriveConfidence_isOpen]
    exact hnc
  · intro x hx hu
    obtain ⟨x0, _, _, hxe⟩ := hmem x hx
    rw [hxe] at hu ⊢
    rw [deriveConfidence_isOpen] at hu
    exact deriveConfidence_unknown x0 hu
  · intro x hx hnc
    have hxf : x ∈ (tm ++ osm).filter
        (fun z => !(decide (z.isOpenAtTime = OpenState.CLOSED))) := by
      rw [List.mem_filter]
      exact ⟨hx, by simpa using hnc⟩
    have hxm : deriveConfidence x ∈
        ((tm ++ osm).filter
            (fun z => !(decide (z.isOpenAtTime = OpenState.CLOSED)))).map
          deriveConfidence := List.mem_map_of_mem deriveConfidence hxf
    exact dedupe_rep _ [] (deriveConfidence x) hxm

/-- Witness for C6: at a concrete query result, an UNKNOWN suggestion is
retained with confidence LOW. -/
theorem fetchAndRankSuggestions_openState_witness :
    ({ source := SuggestionSource.OSM, title := "Mystery Place",
       externalId := some "mystery-1", venueName := none,
       isOpenAtTime := OpenState.UNKNOWN, confidence := Confidence.LOW,
       slotStartAt := "s", slotEndAt := "e" } : SuggestionDTO).confidence =
      Confidence.LOW :=
  (fetchAndRankSuggestions_openState []
      [{ source := SuggestionSource.OSM, title := "Mystery Place",
         externalId := some "mystery-1", venueName := none,
         isOpenAtTime := OpenState.UNKNOWN, confidence := Confidence.HIGH,
         slotStartAt := "s", slotEndAt := "e" }]).2.1
    { source := SuggestionSource.OSM, title := "Mystery Place",
      externalId := some "mystery-1", venueName := none,
      isOpenAtTime := OpenState.UNKNOWN, confidence := Confidence.LOW,
      slotStartAt := "s", slotEndAt := "e" }
    (by decide) rfl

/-- C9: for a user with no Connection record, pull is a non-fatal
zero-count no-op, and the pull phase of syncAll likewise surfaces zero
counts with no provider or store mutation. -/
theorem syncAll_no_connection (userId : String) (now : Nat) (s : SyncState)
    (h : lookupConnection s userId = none) :
    syncPull userId now s = (s, { pulled := 0, updated := 0, deleted := 0 })
    ∧ syncPush userId now s = (s, { pushed := 0, updated := 0 })
    ∧ (syncAll userId now s).2 =
        { pulled := 0, updated := 0, deleted := 0, pushed := 0 }
    ∧ (syncAll userId now s).1.events = s.events
    ∧ (syncAll userId now s).1.mappings = s.mappings
    ∧ (syncAll userId now s).1.remote = s.remote := by
  refine ⟨?_, ?_, ?_, ?_, ?_, ?_⟩ <;>
    simp [syncAll, syncPull, syncPush, upsertLastSynced, h]

/-- Witness for C9 at a concrete state with no connection. -/
theorem syncAll_no_connection_witness :
    syncPull "u" 5
        { connections := [], events := [], mappings := [], remote := [],
          nextLocalId := 0, nextRemoteId := 0 } =
      ({ connections := [], events := [], mappings := [], remote := [],
         nextLocalId := 0, nextRemoteId := 0 },
       { pulled := 0, updated := 0, deleted := 0 }) :=
  (syncAll_no_connection "u" 5
      { connections := [], events := [], mappings := [], remote := [],
        nextLocalId := 0, nextRemoteId := 0 } (by decide)).1

/-- C10: calendar redaction invariant of filterEventsForViewer: a
disallowed permission yields the empty list; a PRIVATE event, or any
event under a BUSY_ONLY detail level, is returned with title Busy, no
location, and redacted true; an allowed permission returns exactly the
per-event redaction of the input list. -/
theorem filterEventsForViewer_redacts (events : List ViewerEvent)
    (perm : CalendarPermission) :
    (perm.allowed = false → filterEventsForViewer events perm = [])
    ∧ (∀ e : ViewerEvent,
        e.visibility = EventVisibility.PRIVATE ∨
          perm.detailLevel = some DetailLevel.BUSY_ONLY →
        (redactEvent perm e).title = "Busy" ∧
          (redactEvent perm e).locationName = none ∧
          (redactEvent perm e).redacted = true)
    ∧ (perm.allowed = true →
        filterEventsForViewer events perm = events.map (redactEvent perm)) := by
  refine ⟨?_, ?_, ?_⟩
  · intro h
    simp [filterEventsForViewer, h]
  · intro e he
    rcases he with h | h <;> simp [redactEvent, h]
  · intro h
    simp [filterEventsForViewer, h]

/-- Witness for C10: a PRIVATE event is redacted even under a DETAILS
permission, at concrete inputs. -/
theorem filterEventsForViewer_redacts_witness :
    (redactEvent { allowed := true, detailLevel := some DetailLevel.DETAILS }
        { id := "e1", title := "Secret dinner", startAt := 0, endAt := 1,
          locationName := some "Cafe", visibility := EventVisibility.PRIVATE }).title =
      "Busy" ∧
    (redactEvent { allowed := true, detailLevel := some DetailLevel.DETAILS }
        { id := "e1", title := "Secret dinner", startAt := 0, endAt := 1,
          locationName := some "Cafe", visibility := EventVisibility.PRIVATE }).locationName =
      none ∧
    (redactEvent { allowed := true, detailLevel := some DetailLevel.DETAILS }
        { id := "e1", title := "Secret dinner", startAt := 0, endAt := 1,
          locationName := some "Cafe", visibility := EventVisibility.PRIVATE }).redacted =
      true :=
  (filterEventsForViewer_redacts []
      { allowed := true, detailLevel := some DetailLevel.DETAILS }).2.1
    { id := "e1", title := "Secret dinner", startAt := 0, endAt := 1,
      locationName := some "Cafe", visibility := EventVisibility.PRIVATE }
    (Or.inl rfl)

/-! ## Sync engine: syncAll assembly lemmas -/

/-- Connection lookup only reads the connection store. -/
theorem lookupConnection_congr (s s2 : SyncState) (userId : String)
    (h : s2.connections = s.connections) :
    lookupConnection s2 userId = lookupConnection s userId := by
  unfold lookupConnection
  rw [h]

/-- The push candidate query only reads the event store. -/
theorem pushCandidates_congr (userId : String) (s s2 : SyncState)
    (h : s2.events = s.events) :
    pushCandidates userId s2 = pushCandidates userId s := by
  unfold pushCandidates
  rw [h]

/-- Push candidates carry duplicate-free ids in a well-formed state. -/
theorem pushCandidates_nodup (userId : String) (now : Nat) (s : SyncState)
    (hinv : SyncInv userId now s) :
    ((pushCandidates userId s).map LocalEvent.id).Nodup :=
  List.Nodup.sublist ((List.filter_sublist _).map _) hinv.eventsNodup

/-- The lastSyncedAt upsert maps the connection lookup. -/
theorem lookupConnection_upsert (userId : String) (now : Nat) (s : SyncState) :
    lookupConnection (upsertLastSynced userId now s) userId =
    (lookupConnection s userId).map
      (fun c0 => { c0 with lastSyncedAt := some now }) := by
  unfold lookupConnection upsertLastSynced
  rw [find?_map_key _ _ _ (fun p => by split <;> rfl)]
  cases hf : s.connections.find? (fun p => p.1 == userId) with
  | none => rfl
  | some p0 =>
      have hq : (p0.1 == userId) = true := by
        have h0 := List.find?_some hf
        exact h0
      simp [eq_of_beq hq]

/-- Pull branch equation: no connection. -/
theorem syncPull_eq_none (userId : String) (now : Nat) (s : SyncState)
    (hc : lookupConnection s userId = none) :
    syncPull userId now s = (s, { pulled := 0, updated := 0, deleted := 0 }) := by
  unfold syncPull
  rw [hc]

/-- Pull branch equation: connection present. -/
theorem syncPull_eq_fold (userId : String) (now : Nat) (s : SyncState)
    (conn : Connection) (hc : lookupConnection s userId = some conn) :
    syncPull userId now s =
      (listAllEvents s userId).foldl (pullOne userId now)
        (s, { pulled := 0, updated := 0, deleted := 0 }) := by
  unfold syncPull
  rw [hc]

/-- Push branch equation: no connection. -/
theorem syncPush_eq_none (userId : String) (now : Nat) (s : SyncState)
    (hc : lookupConnection s userId = none) :
    syncPush userId now s = (s, { pushed := 0, updated := 0 }) := by
  unfold syncPush
  rw [hc]

/-- Push branch equation: push disabled. -/
theorem syncPush_eq_disabled (userId : String) (now : Nat) (s : SyncState)
    (conn : Connection) (hc : lookupConnection s userId = some conn)
    (hpe : conn.pushEnabled = false) :
    syncPush userId now s = (s, { pushed := 0, updated := 0 }) := by
  unfold syncPush
  rw [hc]
  simp [hpe]

/-- Push branch equation: push enabled. -/
theorem syncPush_eq_fold (userId : String) (now : Nat) (s : SyncState)
    (conn : Connection) (hc : lookupConnection s userId = some conn)
    (hpe : conn.pushEnabled = true) :
    syncPush userId now s =
      (pushCandidates userId s).foldl (pushOne userId now)
        (s, { pushed := 0, updated := 0 }) := by
  unfold syncPush
  rw [hc]
  simp [hpe]

/-- A pull over a fully pull-stable listing is a no-op. -/
theorem syncPull_noop_of_stable (userId : String) (now : Nat) (s : SyncState)
    (hstab : (∃ conn, lookupConnection s userId = some conn) →
      ∀ r ∈ listAllEvents s userId, PullStable userId s r) :
    syncPull userId now s = (s, { pulled := 0, updated := 0, deleted := 0 }) := by
  cases hc : lookupConnection s userId with
  | none => exact syncPull_eq_none userId now s hc
  | some conn =>
      rw [syncPull_eq_fold userId now s conn hc]
      apply foldl_fixed
      intro r hr
      exact pullOne_of_pullStable userId s r (hstab ⟨conn, hc⟩ r hr) now _

/-- A push over fully push-stable candidates is a no-op. -/
theorem syncPush_noop_of_stable (userId : String) (now : Nat) (s : SyncState)
    (hstab : (∃ conn, lookupConnection s userId = some conn ∧
        conn.pushEnabled = true) →
      ∀ e ∈ pushCandidates userId s, PushStable userId s e) :
    syncPush userId now s = (s, { pushed := 0, updated := 0 }) := by
  cases hc : lookupConnection s userId with
  | none => exact syncPush_eq_none userId now s hc
  | some conn =>
      cases hpe : conn.pushEnabled with
      | false => exact syncPush_eq_disabled userId now s conn hc hpe
      | true =>
          rw [syncPush_eq_fold userId now s conn hc hpe]
          apply foldl_fixed
          intro e he
          exact pushOne_of_pushStable userId s e (hstab ⟨conn, hc, hpe⟩ e he) now _

/-- When pull and push are both no-ops, syncAll returns zero counts. -/
theorem syncAll_counts_of_noops (userId : String) (now : Nat) (s : SyncState)
    (hp : syncPull userId now s = (s, { pulled := 0, updated := 0, deleted := 0 }))
    (hq : syncPush userId now s = (s, { pushed := 0, updated := 0 })) :
    (syncAll userId now s).2 =
      { pulled := 0, updated := 0, deleted := 0, pushed := 0 } := by
  simp [syncAll, hp, hq]

/-- The state component of syncAll is the upserted push-after-pull
state. -/
theorem syncAll_state (userId : String) (now : Nat) (s : SyncState) :
    (syncAll userId now s).1 =
      upsertLastSynced userId now
        (syncPush userId now (syncPull userId now s).1).1 := rfl

/-- One syncAll from a well-formed state leaves every listed remote event
pull-stable and, when push is enabled, every candidate push-stable:
the convergence half of the idempotence argument. -/
theorem syncAll_establishes (userId : String) (now : Nat) (s : SyncState)
    (hinv : SyncInv userId now s) :
    ((∃ conn2, lookupConnection (syncAll userId now s).1 userId = some conn2) →
      ∀ r ∈ listAllEvents (syncAll userId now s).1 userId,
        PullStable userId (syncAll userId now s).1 r)
    ∧ ((∃ conn2, lookupConnection (syncAll userId now s).1 userId = some conn2 ∧
          conn2.pushEnabled = true) →
        ∀ e ∈ pushCandidates userId (syncAll userId now s).1,
          PushStable userId (syncAll userId now s).1 e) := by
  cases hc : lookupConnection s userId with
  | none =>
      have hp := syncPull_eq_none userId now s hc
      have hq := syncPush_eq_none userId now s hc
      have hstate : (syncAll userId now s).1 = upsertLastSynced userId now s := by
        simp [syncAll, hp, hq]
      have hl : lookupConnection (syncAll userId now s).1 userId = none := by
        rw [hstate, lookupConnection_upsert, hc]
        rfl
      constructor
      · rintro ⟨conn2, hc2⟩
        rw [hl] at hc2
        cases hc2
      · rintro ⟨conn2, hc2, _⟩
        rw [hl] at hc2
        cases hc2
  | some conn =>
      have hpull_eq := syncPull_eq_fold userId now s conn hc
      obtain ⟨frem, fconn, fnr, finv, fstab, fframe⟩ :=
        pull_fold userId now (listAllEvents s userId) s
          { pulled := 0, updated := 0, deleted := 0 } hinv
          hinv.remoteNodup (fun r hr => listAllEvents_id_lt userId now s hinv r hr)
      have hlist1 : listAllEvents
          ((listAllEvents s userId).foldl (pullOne userId now)
            (s, { pulled := 0, updated := 0, deleted := 0 })).1 userId =
          listAllEvents s userId :=
        listAllEvents_congr s _ userId frem
      have hstab1 : ∀ r ∈ listAllEvents
          ((listAllEvents s userId).foldl (pullOne userId now)
            (s, { pulled := 0, updated := 0, deleted := 0 })).1 userId,
          PullStable userId
            ((listAllEvents s userId).foldl (pullOne userId now)
              (s, { pulled := 0, updated := 0, deleted := 0 })).1 r := by
        rw [hlist1]
        exact fstab
      have hc1 : lookupConnection
          ((listAllEvents s userId).foldl (pullOne userId now)
            (s, { pulled := 0, updated := 0, deleted := 0 })).1 userId =
          some conn := by
        rw [lookupConnection_congr s _ userId fconn]
        exact hc
      have hstate : (syncAll userId now s).1 =
          upsertLastSynced userId now
            (syncPush userId now
              ((listAllEvents s userId).foldl (pullOne userId now)
                (s, { pulled := 0, updated := 0, deleted := 0 })).1).1 := by
        rw [syncAll_state, hpull_eq]
      cases hpe : conn.pushEnabled with
      | false =>
          have hpush_eq := syncPush_eq_disabled userId now _ conn hc1 hpe
          have hstate2 : (syncAll userId now s).1 =
              upsertLastSynced userId now
                ((listAllEvents s userId).foldl (pullOne userId now)
                  (s, { pulled := 0, updated := 0, deleted := 0 })).1 := by
            rw [hstate, hpush_eq]
          have hl : lookupConnection (syncAll userId now s).1 userId =
              some { conn with lastSyncedAt := some now } := by
            rw [hstate2, lookupConnection_upsert, hc1]
            rfl
          constructor
          · intro _ r hr
            rw [hstate2] at hr ⊢
            exact pullStable_transfer userId _ _ r rfl (hstab1 r hr)
          · rintro ⟨conn2, hc2, hpe2⟩
            rw [hl] at hc2
            cases hc2
            exact absurd (show conn.pushEnabled = true from hpe2)
              (by rw [hpe]; simp)
      | true =>
          have hpush_eq := syncPush_eq_fold userId now _ conn hc1 hpe
          obtain ⟨gev, gconn, gnl, ginv, gstab, gframe, gpull⟩ :=
            push_fold userId now
              (pushCandidates userId
                ((listAllEvents s userId).foldl (pullOne userId now)
                  (s, { pulled := 0, updated := 0, deleted := 0 })).1)
              ((listAllEvents s userId).foldl (pullOne userId now)
                (s, { pulled := 0, updated := 0, deleted := 0 })).1
              { pushed := 0, updated := 0 } finv
              (pushCandidates_nodup userId now _ finv)
              (fun e he => finv.eventLt e (List.mem_of_mem_filter he))
              (fun e he => finv.updatedLe e (List.mem_of_mem_filter he))
          have hstate2 : (syncAll userId now s).1 =
              upsertLastSynced userId now
                ((pushCandidates userId
                    ((listAllEvents s userId).foldl (pullOne userId now)
                      (s, { pulled := 0, updated := 0, deleted := 0 })).1).foldl
                  (pushOne userId now)
                  (((listAllEvents s userId).foldl (pullOne userId now)
                      (s, { pulled := 0, updated := 0, deleted := 0 })).1,
                    { pushed := 0, updated := 0 })).1 := by
            rw [hstate, hpush_eq]
          have hpullstab2 := gpull hstab1
          constructor
          · intro _ r hr
            rw [hstate2] at hr ⊢
            exact pullStable_transfer userId _ _ r rfl (hpullstab2 r hr)
          · intro _ e he
            rw [hstate2] at he ⊢
            have he2 : e ∈ pushCandidates userId
                ((pushCandidates userId
                    ((listAllEvents s userId).foldl (pullOne userId now)
                      (s, { pulled := 0, updated := 0, deleted := 0 })).1).foldl
                  (pushOne userId now)
                  (((listAllEvents s userId).foldl (pullOne userId now)
                      (s, { pulled := 0, updated := 0, deleted := 0 })).1,
                    { pushed := 0, updated := 0 })).1 := he
            rw [pushCandidates_congr userId _ _ gev] at he2
            exact pushStable_transfer userId _ _ e rfl (gstab e he2)

/-- C1: syncAll is idempotent: from a well-formed state (duplicate-free
remote ids and store keys, fresh-id counters bounding every stored id,
and no local modification instant in the future of the sync instant), a
second syncAll at any later instant, with no intervening external
change, returns the counts zero pulled, zero updated, zero deleted and
zero pushed. -/
theorem syncAll_idempotent (userId : String) (now now2 : Nat) (s : SyncState)
    (hinv : SyncInv userId now s) :
    (syncAll userId now2 (syncAll userId now s).1).2 =
      { pulled := 0, updated := 0, deleted := 0, pushed := 0 } := by
  obtain ⟨hpullstab, hpushstab⟩ := syncAll_establishes userId now s hinv
  apply syncAll_counts_of_noops
  · exact syncPull_noop_of_stable userId now2 _ hpullstab
  · exact syncPush_noop_of_stable userId now2 _ hpushstab

/-- A concrete well-formed demonstration state: one connection with push
enabled, one unmapped KODA event to push, one unmapped confirmed remote
event to pull. -/
def demoSyncState : SyncState :=
  { connections :=
      [("u", { pushEnabled := true, syncWindowPastDays := 30,
               syncWindowFutureDays := 90, lastSyncedAt := none })]
    events :=
      [{ id := 0, ownerId := "u", title := "Koda Meeting", description := none,
         locationName := none, startAt := 100, endAt := 200,
         timezone := "UTC", source := EventSource.KODA, externalId := none,
         syncToGoogle := true, updatedAt := 3 }]
    mappings := []
    remote :=
      [("u", { id := 2, summary := some "Standup", description := none,
               location := none,
               gstart := { dateTime := some 10, date := none, timeZone := none },
               gend := { dateTime := some 20, date := none, timeZone := none },
               etag := 7, updated := none, status := GStatus.confirmed })]
    nextLocalId := 1
    nextRemoteId := 5 }

/-- Witness for C1: at a concrete well-formed state that pulls one event
and pushes one event on the first call, the second syncAll returns all
zero counts. -/
theorem syncAll_idempotent_witness :
    (syncAll "u" 11 (syncAll "u" 10 demoSyncState).1).2 =
      { pulled := 0, updated := 0, deleted := 0, pushed := 0 } :=
  syncAll_idempotent "u" 10 11 demoSyncState
    ⟨by decide, by decide, by decide, by decide, by decide, by decide,
     by decide, by decide, by decide⟩

end Koda
